import Mathlib

/-!
Chat widget controller (`static/script.js`).

A shallow embedding of the browser script: the text formatter `formatMessage`
(three global regular-expression replacements), the DOM transcript kept in
`chatContainer`, the `submit` handler with its suspended continuation, and the
`askExample` helper.

The markup of a message is assigned to `innerHTML`, so the elements it creates
join the live document that the script keeps querying.  The HTML parser is not
part of the script: it enters as a parameter `html`, which tells for a markup
what the script's own lookups can observe of the elements it creates
(`Fragment`).  Markup is taken neither to run script nor to navigate the page.

JavaScript strings are modelled by Lean strings (sequences of code points).  The
three regular expressions carry no `u` flag and mention only the characters
`*` and line feed, and `.` accepts every code unit that is not a line
terminator, so on well-formed strings matching by code point and matching by
UTF-16 code unit give the same replacements.
-/

namespace ChatWidget

/-! ## Text formatting -/

/-- ECMAScript `LineTerminator`: the code points that `.` refuses to match
(line feed, carriage return, line separator, paragraph separator). -/
def isLineTerminator (c : Char) : Bool :=
  c = '\n' || c = '\r' || c = Char.ofNat 0x2028 || c = Char.ofNat 0x2029

/-- The tail `(.*?)D` of the patterns `/D(.*?)D/`, tried at the head of the
input: the lazy group first lets the closing delimiter `D` match, and only when
it does not match here consumes one more character that is not a line
terminator.  Returns the captured group `$1`. -/
def lazyUpTo (delim : List Char) : List Char → Option (List Char)
  | [] => if delim.isPrefixOf [] then some [] else none
  | c :: rest =>
    if delim.isPrefixOf (c :: rest) then some []
    else if isLineTerminator c then none
    else (lazyUpTo delim rest).map (fun cap => c :: cap)

/-- One attempt of `/D(.*?)D/` anchored at the head of the input; the captured
group on success.  The match then spans `2 * |D| + |$1|` characters. -/
def matchAt (delim : List Char) (s : List Char) : Option (List Char) :=
  if delim.isPrefixOf s then lazyUpTo delim (s.drop delim.length) else none

/-- The scan of `text.replace(/D(.*?)D/g, 'pre$1post')`, left to right.  The
counter is the number of characters still covered by the match just replaced:
they are skipped, and the search resumes right after the match.  Where no match
starts, the character is copied and the search moves one position on. -/
def replaceGo (delim pre post : List Char) : Nat → List Char → List Char
  | _, [] => []
  | k + 1, _ :: rest => replaceGo delim pre post k rest
  | 0, c :: rest =>
    match matchAt delim (c :: rest) with
    | some cap =>
      pre ++ cap ++ post ++ replaceGo delim pre post (2 * delim.length + cap.length - 1) rest
    | none => c :: replaceGo delim pre post 0 rest

/-- Line 76: `text.replace(/\*\*(.*?)\*\*/g, '<strong>$1</strong>')`. -/
def replaceBold (s : List Char) : List Char :=
  replaceGo "**".data "<strong>".data "</strong>".data 0 s

/-- Line 78: `text.replace(/\*(.*?)\*/g, '<em>$1</em>')`. -/
def replaceItalic (s : List Char) : List Char :=
  replaceGo "*".data "<em>".data "</em>".data 0 s

/-- Line 80: `text.replace(/\n/g, '<br>')`. -/
def replaceNewline : List Char → List Char
  | [] => []
  | c :: rest => if c = '\n' then "<br>".data ++ replaceNewline rest else c :: replaceNewline rest

/-- `formatMessage(text)` for a string argument (lines 75-83). -/
def formatMessage (text : String) : String :=
  String.mk (replaceNewline (replaceItalic (replaceBold text.data)))

/-! ## Values received from the backend -/

/-- A value produced by `response.json()`.  A number is only ever tested for
truthiness by the script, so it is represented by whether it is zero.  An object
is its list of own properties (keys distinct, as `JSON.parse` leaves them). -/
inductive Json where
  | null
  | bool (b : Bool)
  | num (isZero : Bool)
  | str (s : String)
  | arr (elems : List Json)
  | obj (fields : List (String × Json))

/-- How the awaited request ends: `fetch` rejects, `response.json()` rejects,
or the body parses to a value. -/
inductive Outcome where
  | fetchRejected
  | jsonRejected
  | parsed (data : Json)

/-- The property reads `data.answer` and `data.detected_language`: reading a
property of `null` throws (`none`); otherwise the result is the own property of
an object, or `undefined` (`some none`): neither name is defined on a
prototype of an object, an array, a string, a number or a boolean. -/
def getProp (data : Json) (key : String) : Option (Option Json) :=
  match data with
  | .null => none
  | .obj fields => some (fields.lookup key)
  | _ => some none

/-- JavaScript truthiness of a property value (`undefined` is `none`). -/
def truthy : Option Json → Bool
  | none => false
  | some .null => false
  | some (.bool b) => b
  | some (.num isZero) => !isZero
  | some (.str s) => s != ""
  | some (.arr _) => true
  | some (.obj _) => true

/-- The strict comparison `v !== 'en'`. -/
def notEn : Option Json → Bool
  | some (.str s) => s != "en"
  | _ => true

mutual
/-- Whether `ToString(v)`, which the template literal of line 46 applies,
throws a `TypeError`.  A primitive converts.  An array converts through
`Array.prototype.join`, which converts each element that is not `null`.  An
object converts through its `toString` property: an own property of that name
is a parsed value, hence not callable, and `Object.prototype.valueOf` returns
the object itself, so the conversion fails; without such an own property
`Object.prototype.toString` answers. -/
def toStringThrows : Json → Bool
  | .null => false
  | .bool _ => false
  | .num _ => false
  | .str _ => false
  | .arr elems => joinThrows elems
  | .obj fields => hasToStringKey fields
/-- The element loop of `Array.prototype.join`. -/
def joinThrows : List Json → Bool
  | [] => false
  | .null :: rest => joinThrows rest
  | e :: rest => toStringThrows e || joinThrows rest
/-- Whether an own property named `toString` is among the fields. -/
def hasToStringKey : List (String × Json) → Bool
  | [] => false
  | (k, _) :: rest => k == "toString" || hasToStringKey rest
end


/-! ## The page -/

/-- What reading `.value` of the element found by line 24 gives: `undefined`, a
string, or anything else (a number, an object). -/
inductive PropValue where
  | undefined
  | str (s : String)
  | other
deriving DecidableEq, Repr

/-- What the script's lookups can observe of the elements a markup creates:
whether one of them is exposed as the named property `createElement`,
`getElementById` or `querySelector` of `document`, or `dispatchEvent` of
`chatForm` (a named property overrides the method of that name); the `value` of
the first one whose id is `languageSelect`; whether one matches
`.welcome-message`. -/
structure Fragment where
  shadowsCreateElement : Bool
  shadowsGetElementById : Bool
  shadowsQuerySelector : Bool
  shadowsDispatchEvent : Bool
  languageSelect : Option PropValue
  welcome : Bool
deriving DecidableEq, Repr

/-- A fragment none of whose elements the lookups observe. -/
def Fragment.inert : Fragment :=
  { shadowsCreateElement := false, shadowsGetElementById := false,
    shadowsQuerySelector := false, shadowsDispatchEvent := false,
    languageSelect := none, welcome := false }

/-- The fragment the assignment to `innerHTML` on line 67 creates.  A markup
without `<` opens no tag and yields text only; for the others the parser `html`
answers. -/
def fragmentOf (html : String → Fragment) (markup : String) : Fragment :=
  if '<' ∈ markup.data then html markup else Fragment.inert

/-- A child of `chatContainer` appended by the script.  Two node objects are the
same object exactly when `ref` agrees; `ref` is assigned at `createElement`.
`innerHTML` is the markup assigned to the inner `div`, `content` the fragment it
created, and `welcomeHidden` tells whether line 111 has assigned
`style.display = 'none'` on the `.welcome-message` element inside this node. -/
structure DomNode where
  ref : Nat
  className : String
  id : String
  childClassName : String
  innerHTML : String
  content : Fragment
  welcomeHidden : Bool
deriving DecidableEq, Repr

/-- A suspended run of the submit handler: the request it awaits (lines 28-37;
`question` and `language` are the values given to `JSON.stringify`) together
with the `typingIndicator` node the closure holds. -/
structure Pending where
  url : String
  method : String
  contentType : String
  question : String
  language : PropValue
  typingIndicator : Nat
deriving DecidableEq, Repr

/-- The mutable state the script reads and writes.  `transcript` lists the
children the script appended to `chatContainer`, oldest first.  `languageSelect`
is the value of the page's own selector when the page has one, and
`selectBeforeChat` tells whether that element precedes the transcript in tree
order.  `welcome` is `none` when the page has no `.welcome-message` element of
its own and otherwise tells whether it is hidden; `welcomeBeforeChat` tells
whether it precedes the transcript in tree order.  The page's own elements are
taken not to shadow the methods the script calls. -/
structure State where
  transcript : List DomNode
  nextRef : Nat
  inputValue : String
  inputFocused : Bool
  sendDisabled : Bool
  isProcessing : Bool
  languageSelect : Option String
  selectBeforeChat : Bool
  welcome : Option Bool
  welcomeBeforeChat : Bool
  pending : List Pending
deriving DecidableEq, Repr

/-- The characters `String.prototype.trim` strips: ECMAScript `WhiteSpace`
(tab, vertical tab, form feed, no-break space, byte-order mark, and the space
separators) and `LineTerminator`. -/
def isTrimChar (c : Char) : Bool :=
  c = '\t' || c = Char.ofNat 0x0B || c = Char.ofNat 0x0C || c = ' ' ||
  c = Char.ofNat 0xA0 || c = Char.ofNat 0xFEFF || c = Char.ofNat 0x1680 ||
  (0x2000 ≤ c.toNat && c.toNat ≤ 0x200A) || c = Char.ofNat 0x202F ||
  c = Char.ofNat 0x205F || c = Char.ofNat 0x3000 || isLineTerminator c

/-- `String.prototype.trim`. -/
def trim (v : String) : String :=
  String.mk (((v.data.dropWhile isTrimChar).reverse.dropWhile isTrimChar).reverse)

/-- Whether `document.createElement` is a rendered element instead of the
method. -/
def createElementShadowed (s : State) : Bool :=
  s.transcript.any (fun n => n.content.shadowsCreateElement)

/-- Whether `document.getElementById` is a rendered element instead of the
method. -/
def getElementByIdShadowed (s : State) : Bool :=
  s.transcript.any (fun n => n.content.shadowsGetElementById)

/-- Whether `document.querySelector` is a rendered element instead of the
method. -/
def querySelectorShadowed (s : State) : Bool :=
  s.transcript.any (fun n => n.content.shadowsQuerySelector)

/-- Whether `chatForm.dispatchEvent` is a rendered element instead of the
method. -/
def dispatchEventShadowed (s : State) : Bool :=
  s.transcript.any (fun n => n.content.shadowsDispatchEvent)

/-- Lines 62-72 of `addMessage(text, sender)` for a string `text`: a new
`div.message.<sender>` holding a `div.message-content` whose markup is
`formatMessage(text)`, appended to the container. -/
def appendMessage (html : String → Fragment) (text : String) (sender : String)
    (s : State) : State :=
  { s with
    transcript := s.transcript ++
      [{ ref := s.nextRef, className := "message " ++ sender, id := "",
         childClassName := "message-content", innerHTML := formatMessage text,
         content := fragmentOf html (formatMessage text), welcomeHidden := false }]
    nextRef := s.nextRef + 1 }

/-- `addMessage(text, sender)` for a string `text` (lines 60-73).  `none` is the
`TypeError` of line 61 when `document.createElement` is shadowed; nothing has
changed then. -/
def addMessage (html : String → Fragment) (text : String) (sender : String)
    (s : State) : Option State :=
  if createElementShadowed s then none else some (appendMessage html text sender s)

/-- `addMessage(text, sender)` for an arbitrary value: after line 61,
`text.replace` on line 76 throws unless `text` is a string (`undefined`, `null`,
numbers, booleans, arrays and parsed objects have no callable `replace`), and it
throws before line 70 appends anything.  `none` is the throw. -/
def addMessageValue (html : String → Fragment) (text : Option Json) (sender : String)
    (s : State) : Option State :=
  if createElementShadowed s then none
  else
    match text with
    | some (.str t) => some (appendMessage html t sender s)
    | _ => none

/-- Lines 87-97 of `addTypingIndicator()`: a new `div.message.assistant` with id
`typing-indicator`, appended to the container.  The three `span` elements are
observed by no lookup. -/
def withIndicator (s : State) : State :=
  { s with
    transcript := s.transcript ++
      [{ ref := s.nextRef, className := "message assistant", id := "typing-indicator",
         childClassName := "typing-indicator",
         innerHTML := "<span></span><span></span><span></span>",
         content := Fragment.inert, welcomeHidden := false }]
    nextRef := s.nextRef + 1 }

/-- `addTypingIndicator()` (lines 85-100); the second component is the node
returned.  `none` is the `TypeError` of line 86 when `document.createElement` is
shadowed. -/
def addTypingIndicator (s : State) : Option (State × Nat) :=
  if createElementShadowed s then none else some (withIndicator s, s.nextRef)

/-- `removeTypingIndicator(indicator)` (lines 102-106): the node is taken out of
its parent when it has one. -/
def removeTypingIndicator (indicator : Nat) (s : State) : State :=
  { s with transcript := s.transcript.filter (fun n => n.ref != indicator) }

/-- Line 111 on the first transcript node that holds a `.welcome-message`
element. -/
def hideFirst : List DomNode → List DomNode
  | [] => []
  | n :: rest =>
    if n.content.welcome then { n with welcomeHidden := true } :: rest
    else n :: hideFirst rest

/-- Line 111 on the page's own `.welcome-message` element, when it has one. -/
def hideOwnWelcome (s : State) : State :=
  { s with welcome := s.welcome.map (fun _ => true) }

/-- `hideWelcomeMessage()` (lines 108-113).  `none` is the `TypeError` of
line 109 when `document.querySelector` is shadowed.  Otherwise the first match
in tree order gets `style.display = 'none'`: the page's own element when it
precedes the transcript, else the first match inside a rendered message, else
the page's own element. -/
def hideWelcomeMessage (s : State) : Option State :=
  if querySelectorShadowed s then none
  else if s.welcome.isSome && s.welcomeBeforeChat then some (hideOwnWelcome s)
  else if s.transcript.any (fun n => n.content.welcome) then
    some { s with transcript := hideFirst s.transcript }
  else some (hideOwnWelcome s)

/-- Line 24 after `document.getElementById` has answered, as the `value` of the
element found: the page's own selector when it precedes the transcript, else the
first element with that id inside a rendered message, else the page's own
selector; `none` is `null`. -/
def findLanguageSelect (s : State) : Option PropValue :=
  if s.languageSelect.isSome && s.selectBeforeChat then s.languageSelect.map PropValue.str
  else
    match s.transcript.findSome? (fun n => n.content.languageSelect) with
    | some v => some v
    | none => s.languageSelect.map PropValue.str

/-- Line 25: `languageSelect ? languageSelect.value : 'auto'`. -/
def selectedLanguage (s : State) : PropValue :=
  match findLanguageSelect s with
  | some v => v
  | none => PropValue.str "auto"

/-- The fixed text of line 51. -/
def fallbackText : String :=
  "Sorry, there was an error processing your question. Please try again."

/-- Line 15: `userInput.value = ''`. -/
def clearInput (s : State) : State := { s with inputValue := "" }

/-- Lines 19-20: the flag is set and the button disabled. -/
def setProcessing (s : State) : State :=
  { s with isProcessing := true, sendDisabled := true }

/-- Lines 14-25 of the submit handler, run once the guard of line 12 has let
`question` through.  These lines run outside the `try`: an exception ends the
handler, and `Except.error` carries the state it leaves behind.  Otherwise the
state, the node of line 22 and the value of line 25. -/
def beforeFetch (html : String → Fragment) (question : String) (s : State) :
    Except State (State × Nat × PropValue) :=
  match addMessage html question "user" s with
  | none => .error s
  | some s1 =>
    match hideWelcomeMessage (clearInput s1) with
    | none => .error (clearInput s1)
    | some s3 =>
      match addTypingIndicator (setProcessing s3) with
      | none => .error (setProcessing s3)
      | some (s5, indicator) =>
        if getElementByIdShadowed s5 then .error s5
        else .ok (s5, indicator, selectedLanguage s5)

/-- Lines 27-37: the `fetch` call; the handler then suspends at `await`. -/
def issueFetch (question : String) (language : PropValue) (typingIndicator : Nat)
    (s : State) : State :=
  { s with
    pending := s.pending ++
      [{ url := "/ask", method := "POST", contentType := "application/json",
         question := question, language := language,
         typingIndicator := typingIndicator }] }

/-- The submit handler up to its first `await` (lines 8-37). -/
def submitHandler (html : String → Fragment) (s : State) : State :=
  let question := trim s.inputValue
  if question = "" ∨ s.isProcessing = true then s
  else
    match beforeFetch html question s with
    | .error dead => dead
    | .ok (s5, indicator, language) => issueFetch question language indicator s5

/-- The `try` block after the awaits (lines 39-47).  The state reached, and
whether an exception left the block. -/
def tryBlock (html : String → Fragment) (typingIndicator : Nat) (o : Outcome)
    (s : State) : State × Bool :=
  match o with
  | .fetchRejected => (s, true)
  | .jsonRejected => (s, true)
  | .parsed data =>
    let s1 := removeTypingIndicator typingIndicator s
    match getProp data "answer" with
    | none => (s1, true)
    | some answer =>
      match addMessageValue html answer "assistant" s1 with
      | none => (s1, true)
      | some s2 =>
        match getProp data "detected_language" with
        | none => (s2, true)
        | some dl =>
          if truthy dl && notEn dl then
            match dl with
            | some v => (s2, toStringThrows v)
            | none => (s2, false)
          else (s2, false)

/-- The `catch` block (lines 49-52).  When line 51 throws in its turn nothing
is appended. -/
def catchBlock (html : String → Fragment) (typingIndicator : Nat) (s : State) : State :=
  let s1 := removeTypingIndicator typingIndicator s
  match addMessage html fallbackText "assistant" s1 with
  | some s2 => s2
  | none => s1

/-- The `finally` block (lines 53-57). -/
def finallyBlock (s : State) : State :=
  { s with isProcessing := false, sendDisabled := false, inputFocused := true }

/-- The rest of the submit handler, resumed when its request settles
(lines 39-57). -/
def resume (html : String → Fragment) (typingIndicator : Nat) (o : Outcome)
    (s : State) : State :=
  let r := tryBlock html typingIndicator o s
  finallyBlock (if r.2 then catchBlock html typingIndicator r.1 else r.1)

/-- `askExample(element)` (lines 115-121), given `element.textContent`.  When
`chatForm.dispatchEvent` is shadowed line 120 throws and the handler does not
run. -/
def askExample (html : String → Fragment) (textContent : String) (s : State) : State :=
  let s1 := { s with inputValue := textContent, inputFocused := true }
  if dispatchEventShadowed s1 then s1 else submitHandler html s1

/-- What the event loop can deliver to the script. -/
inductive Event where
  | input (v : String)
  | selectLanguage (v : String)
  | submit
  | enterKey
  | askExample (textContent : String)
  | settle (i : Nat) (o : Outcome)

/-- One turn of the event loop.  `input` and `selectLanguage` are the user
editing the text field and the page's selector; `submit` is the form's submit
event; `enterKey` is Enter without Shift in the text field (lines 123-128),
which goes through `chatForm.dispatchEvent`; `settle i o` resumes the `i`-th
suspended handler with outcome `o`.  The handler writes nothing between its two
awaits (lines 28 and 39), so both are one suspension here, and once resumed it
runs to its end without yielding. -/
def step (html : String → Fragment) (s : State) : Event → State
  | .input v => { s with inputValue := v }
  | .selectLanguage v => { s with languageSelect := s.languageSelect.map (fun _ => v) }
  | .submit => submitHandler html s
  | .enterKey => if dispatchEventShadowed s then s else submitHandler html s
  | .askExample t => askExample html t s
  | .settle i o =>
    match s.pending.get? i with
    | none => s
    | some p => resume html p.typingIndicator o { s with pending := s.pending.eraseIdx i }

/-- The page as loaded: nothing appended yet, no request, the flag of line 6
false. -/
def IsInitial (s : State) : Prop :=
  s.transcript = [] ∧ s.isProcessing = false ∧ s.pending = []

/-- States the page can be in. -/
inductive Reachable (html : String → Fragment) : State → Prop where
  | init (s : State) : IsInitial s → Reachable html s
  | step (s : State) (ev : Event) : Reachable html s → Reachable html (step html s ev)

/-- A transcript entry is the typing indicator when it carries the identifier
of line 88. -/
def isTypingIndicator (n : DomNode) : Bool := n.id == "typing-indicator"

/-- The user and assistant messages of a transcript, in order. -/
def messages (t : List DomNode) : List DomNode :=
  t.filter (fun n => !isTypingIndicator n)

/-- Spec wording of the example-question property: the text is put in the input
field and the submit handler runs. -/
def typeAndSubmit (html : String → Fragment) (text : String) (s : State) : State :=
  submitHandler html { s with inputValue := text }

/-! ## Vocabulary of the properties -/

/-- A string without asterisk and without line terminator. -/
def Plain (s : List Char) : Prop :=
  '*' ∉ s ∧ ∀ c ∈ s, isLineTerminator c = false

instance (s : List Char) : Decidable (Plain s) :=
  inferInstanceAs (Decidable ('*' ∉ s ∧ ∀ c ∈ s, isLineTerminator c = false))

/-- The node `addMessage` creates for a user message with markup `m` that
created the fragment `f`. -/
def userNode (ref : Nat) (m : String) (f : Fragment) : DomNode :=
  { ref := ref, className := "message user", id := "",
    childClassName := "message-content", innerHTML := m, content := f,
    welcomeHidden := false }

/-- The node `addMessage` creates for an assistant message with markup `m` that
created the fragment `f`. -/
def assistantNode (ref : Nat) (m : String) (f : Fragment) : DomNode :=
  { ref := ref, className := "message assistant", id := "",
    childClassName := "message-content", innerHTML := m, content := f,
    welcomeHidden := false }

/-- The node `addTypingIndicator` creates. -/
def indicatorNode (ref : Nat) : DomNode :=
  { ref := ref, className := "message assistant", id := "typing-indicator",
    childClassName := "typing-indicator",
    innerHTML := "<span></span><span></span><span></span>",
    content := Fragment.inert, welcomeHidden := false }

/-- A node as appended: identity, sender, markup and fragment, leaving aside
whether line 111 has since hidden an element inside it. -/
def unstyled (n : DomNode) : DomNode := { n with welcomeHidden := false }

/-- A fragment no document lookup of the submit handler observes: nothing
shadows `createElement`, `getElementById` or `querySelector`, nothing carries
the id `languageSelect`, nothing matches `.welcome-message`. -/
def Fragment.silent (f : Fragment) : Bool :=
  !f.shadowsCreateElement && !f.shadowsGetElementById && !f.shadowsQuerySelector &&
  f.languageSelect.isNone && !f.welcome

/-- No rendered markup is observed by a document lookup of the submit handler. -/
def Silent (s : State) : Prop :=
  ∀ n ∈ s.transcript, n.content.silent = true

/-- No rendered markup shadows `document.createElement` or
`document.getElementById`. -/
def Unshadowed (s : State) : Prop :=
  ∀ n ∈ s.transcript,
    n.content.shadowsCreateElement = false ∧ n.content.shadowsGetElementById = false

instance (s : State) : Decidable (Silent s) :=
  inferInstanceAs (Decidable (∀ n ∈ s.transcript, n.content.silent = true))

instance (s : State) : Decidable (Unshadowed s) :=
  inferInstanceAs (Decidable (∀ n ∈ s.transcript,
    n.content.shadowsCreateElement = false ∧ n.content.shadowsGetElementById = false))

/-- Several assistant messages appended in turn. -/
def appendAll (html : String → Fragment) (texts : List String) (s : State) : State :=
  texts.foldl (fun st t => appendMessage html t "assistant" st) s

/-- What every reachable state satisfies: node identities are below the
allocation counter and pairwise distinct; at most one handler is suspended;
while one is, the flag is set, the typing indicator in the transcript is the
node it holds and `document.createElement` is not shadowed; the transcript holds
at most one typing indicator, only while the flag is set, and its content is
observed by no lookup. -/
def Inv (s : State) : Prop :=
  (∀ n ∈ s.transcript, n.ref < s.nextRef) ∧
  (s.transcript.map DomNode.ref).Nodup ∧
  s.pending.length ≤ 1 ∧
  (s.pending ≠ [] → s.isProcessing = true) ∧
  (s.pending ≠ [] → (s.transcript.filter isTypingIndicator).map DomNode.ref
    = s.pending.map Pending.typingIndicator) ∧
  (s.transcript.filter isTypingIndicator).length ≤ 1 ∧
  (s.transcript.filter isTypingIndicator ≠ [] → s.isProcessing = true) ∧
  (s.pending ≠ [] → createElementShadowed s = false) ∧
  (∀ n ∈ s.transcript, isTypingIndicator n = true → n.content = Fragment.inert)

/-- The string `data.answer` when the parsed body has one. -/
def answerText (data : Json) : Option String :=
  match getProp data "answer" with
  | some (some (.str a)) => some a
  | _ => none

/-- The request failed: `fetch` rejected, the body did not parse, or the parsed
body carries no string `answer`. -/
def Failed : Outcome → Bool
  | .fetchRejected => true
  | .jsonRejected => true
  | .parsed data => (answerText data).isNone

/-- The HTML parser on the four markups used below: an `img` named
`getElementById` is a named property of `document`; a `select` with id
`languageSelect` is what line 24 finds, its value that of its only option; a
`p` of class `welcome-message` is what line 109 finds; an `input` owned by
`chatForm` and named `dispatchEvent` is a named property of the form.  The
other markups it meets (`<b>hi</b>`, `<strong>hi</strong> <em>there</em><br>ok`)
create no element that a lookup observes. -/
def sampleHtml (markup : String) : Fragment :=
  if markup = "<img name=getElementById>" then
    { Fragment.inert with shadowsGetElementById := true }
  else if markup = "<select id=\"languageSelect\"><option value=\"xx\">x</option></select>" then
    { Fragment.inert with languageSelect := some (PropValue.str "xx") }
  else if markup = "<p class=\"welcome-message\">A</p>" then
    { Fragment.inert with welcome := true }
  else if markup = "<input form=\"chatForm\" name=\"dispatchEvent\">" then
    { Fragment.inert with shadowsDispatchEvent := true }
  else Fragment.inert

/-- A page with nothing appended yet, without language selector and without
welcome element. -/
def idleState : State :=
  { transcript := [], nextRef := 0, inputValue := "", inputFocused := true,
    sendDisabled := false, isProcessing := false, languageSelect := none,
    selectBeforeChat := false, welcome := none, welcomeBeforeChat := false,
    pending := [] }

/-- The page after the user typed ` hi ` and submitted. -/
def waitingState : State :=
  step sampleHtml (step sampleHtml idleState (.input " hi ")) .submit

/-- The page after the user typed `<img name=getElementById>` and submitted. -/
def stuckState : State :=
  step sampleHtml (step sampleHtml idleState (.input "<img name=getElementById>")) .submit

/-- The page after ` hi ` was answered with `<p class="welcome-message">A</p>`
and the user typed `more`. -/
def answeredState : State :=
  step sampleHtml
    (step sampleHtml waitingState
      (.settle 0 (.parsed (.obj [("answer", .str "<p class=\"welcome-message\">A</p>")]))))
    (.input "more")

/-- The page after the user submitted `<input form="chatForm" name="dispatchEvent">`
and the request failed. -/
def shadowedFormState : State :=
  step sampleHtml
    (step sampleHtml
      (step sampleHtml idleState (.input "<input form=\"chatForm\" name=\"dispatchEvent\">"))
      .submit)
    (.settle 0 .fetchRejected)

/-! ## Formatting: lemmas -/

theorem isPrefixOf_star_cons (d : List Char) (c : Char) (r : List Char) (hc : c ≠ '*') :
    ('*' :: d).isPrefixOf (c :: r) = false := by
  simp [List.isPrefixOf, Ne.symm hc]

theorem isPrefixOf_append_self (d r : List Char) : d.isPrefixOf (d ++ r) = true := by
  induction d with
  | nil => cases r <;> simp [List.isPrefixOf]
  | cons a d ih => simp [List.isPrefixOf, ih]

theorem replaceGo_nil (delim pre post : List Char) (k : Nat) :
    replaceGo delim pre post k [] = [] := by
  cases k <;> rfl

theorem replaceGo_skip (delim pre post xs ys : List Char) :
    replaceGo delim pre post xs.length (xs ++ ys) = replaceGo delim pre post 0 ys := by
  induction xs with
  | nil => rfl
  | cons x xs ih => simpa [replaceGo] using ih

theorem matchAt_none_of_ne (d : List Char) (c : Char) (r : List Char) (hc : c ≠ '*') :
    matchAt ('*' :: d) (c :: r) = none := by
  simp [matchAt, isPrefixOf_star_cons d c r hc]

theorem replaceGo_copy (d pre post p s : List Char) (hp : '*' ∉ p) :
    replaceGo ('*' :: d) pre post 0 (p ++ s) = p ++ replaceGo ('*' :: d) pre post 0 s := by
  induction p with
  | nil => rfl
  | cons c p ih =>
    have hc : c ≠ '*' := fun h => hp (by simp [h])
    have hp' : '*' ∉ p := fun h => hp (by simp [h])
    simp [replaceGo, matchAt_none_of_ne d c (p ++ s) hc, ih hp']

theorem replaceGo_id (d pre post s : List Char) (hs : '*' ∉ s) :
    replaceGo ('*' :: d) pre post 0 s = s := by
  have h := replaceGo_copy d pre post s [] hs
  simpa [replaceGo_nil] using h

theorem lazyUpTo_capture (d X tail : List Char) (ht : ('*' :: d).isPrefixOf tail = true)
    (hX : '*' ∉ X) (hL : ∀ c ∈ X, isLineTerminator c = false) :
    lazyUpTo ('*' :: d) (X ++ tail) = some X := by
  induction X with
  | nil =>
    cases tail with
    | nil => simp [List.isPrefixOf] at ht
    | cons c r => simp only [List.nil_append, lazyUpTo, ht, if_true]
  | cons c X ih =>
    have hc : c ≠ '*' := fun h => hX (by simp [h])
    have hX' : '*' ∉ X := fun h => hX (by simp [h])
    have hl : isLineTerminator c = false := hL c (by simp)
    have hL' : ∀ c ∈ X, isLineTerminator c = false := fun a ha => hL a (by simp [ha])
    have hp : ('*' :: d).isPrefixOf (c :: (X ++ tail)) = false := isPrefixOf_star_cons d c _ hc
    rw [List.cons_append, lazyUpTo, hp, hl, ih hX' hL']
    rfl

theorem replaceGo_match (d pre post X rest : List Char) (hX : '*' ∉ X)
    (hL : ∀ c ∈ X, isLineTerminator c = false) :
    replaceGo ('*' :: d) pre post 0 ('*' :: (d ++ (X ++ ('*' :: (d ++ rest)))))
      = pre ++ X ++ post ++ replaceGo ('*' :: d) pre post 0 rest := by
  have ht : ('*' :: d).isPrefixOf ('*' :: (d ++ rest)) = true :=
    isPrefixOf_append_self ('*' :: d) rest
  have hm : matchAt ('*' :: d) ('*' :: (d ++ (X ++ ('*' :: (d ++ rest))))) = some X := by
    have h : ('*' :: d).isPrefixOf ('*' :: (d ++ (X ++ ('*' :: (d ++ rest))))) = true :=
      isPrefixOf_append_self ('*' :: d) (X ++ ('*' :: (d ++ rest)))
    have hdrop : List.drop ('*' :: d).length ('*' :: (d ++ (X ++ ('*' :: (d ++ rest)))))
        = X ++ ('*' :: (d ++ rest)) :=
      List.drop_left ('*' :: d) (X ++ ('*' :: (d ++ rest)))
    unfold matchAt
    rw [if_pos h, hdrop]
    exact lazyUpTo_capture d X _ ht hX hL
  have hlen : 2 * ('*' :: d).length + X.length - 1 = (d ++ (X ++ ('*' :: d))).length := by
    simp only [List.length_cons, List.length_append]; omega
  have hsk : replaceGo ('*' :: d) pre post (2 * ('*' :: d).length + X.length - 1)
      (d ++ (X ++ ('*' :: (d ++ rest)))) = replaceGo ('*' :: d) pre post 0 rest := by
    rw [hlen]
    have h := replaceGo_skip ('*' :: d) pre post (d ++ (X ++ ('*' :: d))) rest
    simpa [List.append_assoc] using h
  rw [replaceGo, hm]
  simp only [hsk]

theorem replaceNewline_append (a b : List Char) :
    replaceNewline (a ++ b) = replaceNewline a ++ replaceNewline b := by
  induction a with
  | nil => rfl
  | cons c a ih =>
    by_cases h : c = '\n' <;> simp [replaceNewline, h, ih]

theorem replaceNewline_id (a : List Char) (h : '\n' ∉ a) : replaceNewline a = a := by
  induction a with
  | nil => rfl
  | cons c a ih =>
    have hc : c ≠ '\n' := fun e => h (by simp [e])
    have ha : '\n' ∉ a := fun e => h (by simp [e])
    simp [replaceNewline, hc, ih ha]

theorem not_newline_of_not_lineTerminator (a : List Char)
    (h : ∀ c ∈ a, isLineTerminator c = false) : '\n' ∉ a := by
  intro hm
  have := h '\n' hm
  simp [isLineTerminator] at this

theorem replaceBold_after (pre post y z : List Char) (hy : '*' ∉ y) (hz : '*' ∉ z) :
    replaceGo ['*', '*'] pre post 0 (' ' :: '*' :: (y ++ '*' :: '\n' :: z))
      = ' ' :: '*' :: (y ++ '*' :: '\n' :: z) := by
  have hnz : '*' ∉ ('\n' :: z) := by
    intro h
    rcases List.mem_cons.mp h with h | h
    · exact absurd h (by decide)
    · exact hz h
  have hlast : replaceGo ['*', '*'] pre post 0 ('*' :: '\n' :: z) = '*' :: '\n' :: z := by
    have hno : matchAt ['*', '*'] ('*' :: '\n' :: z) = none := by
      simp [matchAt, List.isPrefixOf]
    rw [replaceGo, hno]
    have h := replaceGo_id ['*'] pre post ('\n' :: z) hnz
    simp only [h]
  have hstar : replaceGo ['*', '*'] pre post 0 ('*' :: (y ++ '*' :: '\n' :: z))
      = '*' :: (y ++ '*' :: '\n' :: z) := by
    have hno : matchAt ['*', '*'] ('*' :: (y ++ '*' :: '\n' :: z)) = none := by
      cases y with
      | nil => simp [matchAt, List.isPrefixOf, lazyUpTo, isLineTerminator]
      | cons c y =>
        have hc : c ≠ '*' := fun h => hy (by simp [h])
        simp [matchAt, List.isPrefixOf, Ne.symm hc]
    have hcopy := replaceGo_copy ['*'] pre post y ('*' :: '\n' :: z) hy
    rw [replaceGo, hno]
    simp only []
    rw [hcopy, hlast]
  have hsp : matchAt ['*', '*'] (' ' :: '*' :: (y ++ '*' :: '\n' :: z)) = none :=
    matchAt_none_of_ne ['*'] ' ' _ (by decide)
  rw [replaceGo, hsp]
  simp only [hstar]

theorem format_core (x y z : List Char) (hx : Plain x) (hy : Plain y) (hz : Plain z) :
    replaceNewline (replaceItalic (replaceBold
      ("**".data ++ x ++ "** *".data ++ y ++ "*\n".data ++ z)))
    = "<strong>".data ++ x ++ "</strong> <em>".data ++ y ++ "</em><br>".data ++ z := by
  have hb : replaceBold ("**".data ++ x ++ "** *".data ++ y ++ "*\n".data ++ z)
      = "<strong>".data ++ x ++ "</strong>".data ++ (' ' :: '*' :: (y ++ '*' :: '\n' :: z)) := by
    have hin : "**".data ++ x ++ "** *".data ++ y ++ "*\n".data ++ z
        = '*' :: (['*'] ++ (x ++ ('*' :: (['*'] ++ (' ' :: '*' :: (y ++ '*' :: '\n' :: z)))))) := by
      simp
    rw [hin]
    show replaceGo ('*' :: ['*']) "<strong>".data "</strong>".data 0 _ = _
    rw [replaceGo_match ['*'] _ _ x _ hx.1 hx.2,
      replaceBold_after "<strong>".data "</strong>".data y z hy.1 hz.1]
  have hpre : '*' ∉ "<strong>".data ++ x ++ "</strong>".data ++ [' '] := by
    intro h
    simp only [List.mem_append] at h
    rcases h with ((h | h) | h) | h
    · exact absurd h (by decide)
    · exact hx.1 h
    · exact absurd h (by decide)
    · exact absurd h (by decide)
  have hnz : '*' ∉ ('\n' :: z) := by
    intro h
    rcases List.mem_cons.mp h with h | h
    · exact absurd h (by decide)
    · exact hz.1 h
  have hi : replaceItalic
      ("<strong>".data ++ x ++ "</strong>".data ++ (' ' :: '*' :: (y ++ '*' :: '\n' :: z)))
      = "<strong>".data ++ x ++ "</strong>".data ++ [' '] ++ "<em>".data ++ y ++ "</em>".data
          ++ ('\n' :: z) := by
    have hin : "<strong>".data ++ x ++ "</strong>".data ++ (' ' :: '*' :: (y ++ '*' :: '\n' :: z))
        = ("<strong>".data ++ x ++ "</strong>".data ++ [' '])
            ++ ('*' :: ([] ++ (y ++ ('*' :: ([] ++ ('\n' :: z)))))) := by
      simp
    rw [hin]
    show replaceGo ('*' :: []) "<em>".data "</em>".data 0 _ = _
    rw [replaceGo_copy [] _ _ _ _ hpre,
      replaceGo_match [] _ _ y _ hy.1 hy.2, replaceGo_id [] _ _ _ hnz]
    simp
  rw [hb, hi]
  have nx := not_newline_of_not_lineTerminator x hx.2
  have ny := not_newline_of_not_lineTerminator y hy.2
  have nz := not_newline_of_not_lineTerminator z hz.2
  simp only [replaceNewline_append, replaceNewline_id x nx, replaceNewline_id y ny]
  have e1 : replaceNewline "<strong>".data = "<strong>".data := by decide
  have e2 : replaceNewline "</strong>".data = "</strong>".data := by decide
  have e3 : replaceNewline [' '] = [' '] := by decide
  have e4 : replaceNewline "<em>".data = "<em>".data := by decide
  have e5 : replaceNewline "</em>".data = "</em>".data := by decide
  have e6 : replaceNewline ('\n' :: z) = "<br>".data ++ z := by
    simp [replaceNewline, replaceNewline_id z nz]
  rw [e1, e2, e3, e4, e5, e6]
  simp

/-- C6: for strings X, Y, Z without asterisk and without line terminator,
`formatMessage("**" + X + "** *" + Y + "*\n" + Z)` is
`"<strong>" + X + "</strong> <em>" + Y + "</em><br>" + Z`; in particular
`formatMessage("**hi** *there*\nok")` is `"<strong>hi</strong> <em>there</em><br>ok"`. -/
theorem formatMessage_bold_italic_break (X Y Z : String)
    (hX : Plain X.data) (hY : Plain Y.data) (hZ : Plain Z.data) :
    formatMessage ("**" ++ X ++ "** *" ++ Y ++ "*\n" ++ Z)
      = "<strong>" ++ X ++ "</strong> <em>" ++ Y ++ "</em><br>" ++ Z
    ∧ formatMessage "**hi** *there*\nok" = "<strong>hi</strong> <em>there</em><br>ok" := by
  refine ⟨?_, by decide⟩
  apply String.ext
  simp only [formatMessage, String.data_append]
  exact format_core X.data Y.data Z.data hX hY hZ

theorem formatMessage_bold_italic_break_witness :
    Plain "hi".data ∧ Plain "there".data ∧ Plain "ok".data ∧
    formatMessage ("**" ++ "hi" ++ "** *" ++ "there" ++ "*\n" ++ "ok")
      = "<strong>" ++ "hi" ++ "</strong> <em>" ++ "there" ++ "</em><br>" ++ "ok" :=
  ⟨by decide, by decide, by decide,
    (formatMessage_bold_italic_break "hi" "there" "ok" (by decide) (by decide) (by decide)).1⟩

theorem formatMessage_bold_inline (X : String) (hX : Plain X.data) :
    formatMessage ("**" ++ X ++ "**") = "<strong>" ++ X ++ "</strong>" := by
  apply String.ext
  simp only [formatMessage, String.data_append]
  have hb : replaceBold ("**".data ++ X.data ++ "**".data)
      = "<strong>".data ++ X.data ++ "</strong>".data := by
    have hin : "**".data ++ X.data ++ "**".data
        = '*' :: (['*'] ++ (X.data ++ ('*' :: (['*'] ++ [])))) := by
      simp
    rw [hin]
    show replaceGo ('*' :: ['*']) "<strong>".data "</strong>".data 0 _ = _
    rw [replaceGo_match ['*'] _ _ X.data _ hX.1 hX.2, replaceGo_nil, List.append_nil]
  have hno : '*' ∉ "<strong>".data ++ X.data ++ "</strong>".data := by
    intro h
    simp only [List.mem_append] at h
    rcases h with (h | h) | h
    · exact absurd h (by decide)
    · exact hX.1 h
    · exact absurd h (by decide)
  have hnl : '\n' ∉ "<strong>".data ++ X.data ++ "</strong>".data := by
    intro h
    simp only [List.mem_append] at h
    rcases h with (h | h) | h
    · exact absurd h (by decide)
    · exact not_newline_of_not_lineTerminator X.data hX.2 h
    · exact absurd h (by decide)
  have hi : replaceItalic ("<strong>".data ++ X.data ++ "</strong>".data)
      = "<strong>".data ++ X.data ++ "</strong>".data := replaceGo_id [] _ _ _ hno
  rw [hb, hi, replaceNewline_id _ hnl]

/-- C7 on the code: the text `**a\nb**`, whose `X = "a\nb"` has no asterisk, is
not rendered as `<strong>a<br>b</strong>`: `.` stops at the line feed, the bold
pattern finds no match, and the italic pattern turns each `**` into an empty
`<em></em>`. -/
theorem formatMessage_bold_across_newline :
    '*' ∉ "a\nb".data ∧
    formatMessage ("**" ++ "a\nb" ++ "**") = "<em></em>a<br>b<em></em>" ∧
    formatMessage ("**" ++ "a\nb" ++ "**") ≠ "<strong>" ++ "a<br>b" ++ "</strong>" := by
  decide

/-- C8: no HTML escaping: a text without asterisk and without newline is
returned unchanged by `formatMessage`, and `addMessage` appends a node whose
markup is that very text: lines 62-72 always do, and `addMessage` reaches them
whenever `document.createElement` is the method. -/
theorem formatMessage_no_escape (t : String) (hs : '*' ∉ t.data) (hn : '\n' ∉ t.data) :
    formatMessage t = t ∧
    (∀ (html : String → Fragment) (sender : String) (s : State),
      (appendMessage html t sender s).transcript = s.transcript ++
        [{ ref := s.nextRef, className := "message " ++ sender, id := "",
           childClassName := "message-content", innerHTML := t,
           content := fragmentOf html t, welcomeHidden := false }]) ∧
    (∀ (html : String → Fragment) (sender : String) (s : State),
      createElementShadowed s = false →
        addMessage html t sender s = some (appendMessage html t sender s)) := by
  have h : formatMessage t = t := by
    apply String.ext
    show replaceNewline (replaceItalic (replaceBold t.data)) = t.data
    have hb : replaceBold t.data = t.data := replaceGo_id ['*'] _ _ t.data hs
    have hi : replaceItalic t.data = t.data := replaceGo_id [] _ _ t.data hs
    rw [hb, hi, replaceNewline_id t.data hn]
  refine ⟨h, ?_, ?_⟩
  · intro html sender s
    simp only [appendMessage, h]
  · intro html sender s hc
    simp [addMessage, hc]

theorem formatMessage_no_escape_witness :
    '*' ∉ "<img src=x onerror=alert(1)> & <b>".data ∧
    '\n' ∉ "<img src=x onerror=alert(1)> & <b>".data ∧
    formatMessage "<img src=x onerror=alert(1)> & <b>" = "<img src=x onerror=alert(1)> & <b>" :=
  ⟨by decide, by decide,
    (formatMessage_no_escape "<img src=x onerror=alert(1)> & <b>" (by decide) (by decide)).1⟩

theorem submitHandler_skip (html : String → Fragment) (s : State)
    (h : trim s.inputValue = "" ∨ s.isProcessing = true) : submitHandler html s = s := by
  unfold submitHandler
  simp only [h, if_true]

/-- C1: when the trimmed input is empty or the processing flag is set, the
submit handler changes nothing: transcript, flag, input value, disabled state
and the list of issued requests are those of the state it started from. -/
theorem submitHandler_noop (html : String → Fragment) (s : State)
    (h : trim s.inputValue = "" ∨ s.isProcessing = true) :
    submitHandler html s = s ∧
    (submitHandler html s).transcript = s.transcript ∧
    (submitHandler html s).isProcessing = s.isProcessing ∧
    (submitHandler html s).inputValue = s.inputValue ∧
    (submitHandler html s).sendDisabled = s.sendDisabled ∧
    (submitHandler html s).pending = s.pending := by
  have e : submitHandler html s = s := by
    unfold submitHandler
    simp only [h, if_true]
  simp only [e, and_self]

theorem submitHandler_noop_witness :
    (trim ({ idleState with inputValue := " \n\t " }).inputValue = "" ∨
      ({ idleState with inputValue := " \n\t " }).isProcessing = true) ∧
    submitHandler sampleHtml { idleState with inputValue := " \n\t " }
      = { idleState with inputValue := " \n\t " } :=
  ⟨by decide,
    (submitHandler_noop sampleHtml { idleState with inputValue := " \n\t " } (by decide)).1⟩

/-! ## The handler resumed: shape of the result -/

theorem remove_remove (ti : Nat) (s : State) :
    removeTypingIndicator ti (removeTypingIndicator ti s) = removeTypingIndicator ti s := by
  simp [removeTypingIndicator, List.filter_filter]

theorem remove_appendMessage (html : String → Fragment) (ti : Nat) (t sender : String)
    (s : State) (h : ti < s.nextRef) :
    removeTypingIndicator ti (appendMessage html t sender s)
      = appendMessage html t sender (removeTypingIndicator ti s) := by
  have hne : (s.nextRef != ti) = true := by
    simp only [bne_iff_ne, ne_eq]; omega
  simp [removeTypingIndicator, appendMessage, List.filter_append, List.filter, hne]

theorem appendAll_nextRef (html : String → Fragment) (texts : List String) (s : State) :
    s.nextRef ≤ (appendAll html texts s).nextRef := by
  induction texts generalizing s with
  | nil => exact Nat.le_refl _
  | cons t texts ih =>
    have := ih (appendMessage html t "assistant" s)
    have h1 : (appendMessage html t "assistant" s).nextRef = s.nextRef + 1 := rfl
    show s.nextRef ≤ (appendAll html texts (appendMessage html t "assistant" s)).nextRef
    omega

theorem remove_appendAll (html : String → Fragment) (ti : Nat) (texts : List String)
    (s : State) (h : ti < s.nextRef) :
    removeTypingIndicator ti (appendAll html texts s)
      = appendAll html texts (removeTypingIndicator ti s) := by
  induction texts generalizing s with
  | nil => rfl
  | cons t texts ih =>
    show removeTypingIndicator ti (appendAll html texts (appendMessage html t "assistant" s))
      = appendAll html texts (appendMessage html t "assistant" (removeTypingIndicator ti s))
    rw [ih _ (Nat.lt_succ_of_lt h), remove_appendMessage html ti t "assistant" s h]

theorem finallyBlock_appendAll (html : String → Fragment) (texts : List String) (s : State) :
    finallyBlock (appendAll html texts s) = appendAll html texts (finallyBlock s) := by
  induction texts generalizing s with
  | nil => rfl
  | cons t texts ih =>
    show finallyBlock (appendAll html texts (appendMessage html t "assistant" s))
      = appendAll html texts (appendMessage html t "assistant" (finallyBlock s))
    rw [ih]
    rfl

theorem appendAll_append (html : String → Fragment) (xs ys : List String) (s : State) :
    appendAll html (xs ++ ys) s = appendAll html ys (appendAll html xs s) := by
  simp [appendAll, List.foldl_append]

theorem tryBlock_shape (html : String → Fragment) (ti : Nat) (o : Outcome) (s : State)
    (h : ti < s.nextRef) :
    ∃ pre : List String,
      removeTypingIndicator ti (tryBlock html ti o s).1
        = appendAll html pre (removeTypingIndicator ti s) ∧
      ((tryBlock html ti o s).2 = false →
        (tryBlock html ti o s).1 = appendAll html pre (removeTypingIndicator ti s)) := by
  have hlt : ti < (removeTypingIndicator ti s).nextRef := h
  cases o with
  | fetchRejected => exact ⟨[], rfl, fun hf => absurd hf (by simp [tryBlock])⟩
  | jsonRejected => exact ⟨[], rfl, fun hf => absurd hf (by simp [tryBlock])⟩
  | parsed data =>
    cases hA : getProp data "answer" with
    | none =>
      refine ⟨[], ?_, ?_⟩
      · simp only [tryBlock, hA, remove_remove]; rfl
      · intro hf; simp [tryBlock, hA] at hf
    | some answer =>
      cases hM : addMessageValue html answer "assistant" (removeTypingIndicator ti s) with
      | none =>
        refine ⟨[], ?_, ?_⟩
        · simp only [tryBlock, hA, hM, remove_remove]; rfl
        · intro hf; simp [tryBlock, hA, hM] at hf
      | some s2 =>
        have hs2 : ∃ a, s2 = appendMessage html a "assistant" (removeTypingIndicator ti s) := by
          unfold addMessageValue at hM
          split at hM
          · exact absurd hM (by simp)
          · split at hM
            · exact ⟨_, (Option.some.inj hM).symm⟩
            · exact absurd hM (by simp)
        obtain ⟨a, rfl⟩ := hs2
        have h1 : (tryBlock html ti (.parsed data) s).1
            = appendMessage html a "assistant" (removeTypingIndicator ti s) := by
          simp only [tryBlock, hA, hM]
          cases hD : getProp data "detected_language" with
          | none => rfl
          | some dl =>
            by_cases hc : (truthy dl && notEn dl) = true
            · simp only [hc, if_true]
              cases dl <;> rfl
            · simp only [hc]
              rfl
        refine ⟨[a], ?_, fun _ => h1⟩
        rw [h1, remove_appendMessage html ti a "assistant" _ hlt, remove_remove]
        rfl

theorem catchBlock_cases (html : String → Fragment) (ti : Nat) (s : State) :
    catchBlock html ti s = removeTypingIndicator ti s ∨
    catchBlock html ti s
      = appendMessage html fallbackText "assistant" (removeTypingIndicator ti s) := by
  unfold catchBlock addMessage
  by_cases hc : createElementShadowed (removeTypingIndicator ti s) = true
  · left; simp [hc]
  · right; simp [hc]

theorem resume_eq (html : String → Fragment) (ti : Nat) (o : Outcome) (s : State)
    (h : ti < s.nextRef) :
    ∃ texts : List String,
      resume html ti o s
        = appendAll html texts (removeTypingIndicator ti (finallyBlock s)) := by
  obtain ⟨pre, hrem, hok⟩ := tryBlock_shape html ti o s h
  have hfin : ∀ texts, finallyBlock (appendAll html texts (removeTypingIndicator ti s))
      = appendAll html texts (removeTypingIndicator ti (finallyBlock s)) := by
    intro texts
    rw [finallyBlock_appendAll]
    rfl
  have hres : resume html ti o s
      = finallyBlock (if (tryBlock html ti o s).2 = true
          then catchBlock html ti (tryBlock html ti o s).1
          else (tryBlock html ti o s).1) := rfl
  by_cases hb : (tryBlock html ti o s).2 = true
  · rw [hres, if_pos hb]
    rcases catchBlock_cases html ti (tryBlock html ti o s).1 with hc | hc
    · refine ⟨pre, ?_⟩
      rw [hc, hrem, hfin]
    · refine ⟨pre ++ [fallbackText], ?_⟩
      rw [hc, hrem, appendAll_append, ← hfin]
      rfl
  · have hb' : (tryBlock html ti o s).2 = false := by simpa using hb
    refine ⟨pre, ?_⟩
    rw [hres, if_neg hb, hok hb', hfin]

/-! ## The inductive invariant -/

theorem hideFirst_unstyled (t : List DomNode) :
    (hideFirst t).map unstyled = t.map unstyled := by
  induction t with
  | nil => rfl
  | cons n rest ih =>
    by_cases h : n.content.welcome = true
    · simp only [hideFirst, h, if_true, List.map_cons]
      rfl
    · have h' : n.content.welcome = false := by simpa using h
      simp only [hideFirst, h', Bool.false_eq_true, if_false, List.map_cons, ih]

theorem map_eq_of_unstyled {β : Type} (g : DomNode → β) (hg : ∀ n, g (unstyled n) = g n)
    (t t' : List DomNode) (h : t'.map unstyled = t.map unstyled) : t'.map g = t.map g := by
  have e : ∀ l : List DomNode, l.map g = (l.map unstyled).map g := by
    intro l
    rw [List.map_map]
    exact List.map_congr_left (fun n _ => (hg n).symm)
  rw [e t', e t, h]

theorem filter_eq_of_unstyled (p : DomNode → Bool) (hp : ∀ n, p (unstyled n) = p n)
    (t t' : List DomNode) (h : t'.map unstyled = t.map unstyled) :
    (t'.filter p).map unstyled = (t.filter p).map unstyled := by
  have e : ∀ l : List DomNode, (l.filter p).map unstyled = (l.map unstyled).filter p := by
    intro l
    rw [List.filter_map]
    have : (p ∘ unstyled) = p := funext hp
    rw [this]
  rw [e t', e t, h]

theorem mem_of_unstyled (t t' : List DomNode) (h : t'.map unstyled = t.map unstyled)
    (n : DomNode) (hn : n ∈ t') : ∃ m ∈ t, unstyled m = unstyled n := by
  have : unstyled n ∈ t'.map unstyled := List.mem_map.mpr ⟨n, hn, rfl⟩
  rw [h] at this
  obtain ⟨m, hm, e⟩ := List.mem_map.mp this
  exact ⟨m, hm, e⟩

theorem isTypingIndicator_unstyled (n : DomNode) :
    isTypingIndicator (unstyled n) = isTypingIndicator n := rfl

theorem createElementShadowed_congr (s s' : State)
    (h : s'.transcript.map unstyled = s.transcript.map unstyled) :
    createElementShadowed s' = createElementShadowed s := by
  have e : ∀ l : List DomNode, l.any (fun n => n.content.shadowsCreateElement)
      = (l.map unstyled).any (fun n => n.content.shadowsCreateElement) := by
    intro l
    rw [List.any_map]
    rfl
  unfold createElementShadowed
  rw [e s'.transcript, e s.transcript, h]

theorem inv_congr (s s' : State)
    (ht : s'.transcript.map unstyled = s.transcript.map unstyled)
    (hn : s'.nextRef = s.nextRef) (hp : s'.pending = s.pending)
    (hf : s'.isProcessing = s.isProcessing) (h : Inv s) : Inv s' := by
  obtain ⟨h1, h2, h3, h4, h5, h6, h7, h8, h9⟩ := h
  have href : s'.transcript.map DomNode.ref = s.transcript.map DomNode.ref :=
    map_eq_of_unstyled DomNode.ref (fun _ => rfl) _ _ ht
  have hfil := filter_eq_of_unstyled isTypingIndicator isTypingIndicator_unstyled _ _ ht
  have hfref : (s'.transcript.filter isTypingIndicator).map DomNode.ref
      = (s.transcript.filter isTypingIndicator).map DomNode.ref :=
    map_eq_of_unstyled DomNode.ref (fun _ => rfl) _ _ hfil
  have hflen : (s'.transcript.filter isTypingIndicator).length
      = (s.transcript.filter isTypingIndicator).length := by
    have := congrArg List.length hfref
    simpa using this
  refine ⟨?_, ?_, ?_, ?_, ?_, ?_, ?_, ?_, ?_⟩
  · intro n hn'
    obtain ⟨m, hm, e⟩ := mem_of_unstyled _ _ ht n hn'
    have e' : (unstyled m).ref = (unstyled n).ref := congrArg DomNode.ref e
    have : m.ref = n.ref := e'
    rw [hn, ← this]
    exact h1 m hm
  · rw [href]; exact h2
  · rw [hp]; exact h3
  · rw [hp, hf]; exact h4
  · rw [hp, hfref]; exact h5
  · rw [hflen]; exact h6
  · intro hne
    rw [hf]
    apply h7
    intro hnil
    apply hne
    apply List.eq_nil_of_length_eq_zero
    rw [hflen, hnil]
    rfl
  · rw [hp, createElementShadowed_congr s s' ht]; exact h8
  · intro n hn' hty
    obtain ⟨m, hm, e⟩ := mem_of_unstyled _ _ ht n hn'
    have e' : (unstyled m).content = (unstyled n).content := congrArg DomNode.content e
    have hc : m.content = n.content := e'
    have hi : isTypingIndicator m = isTypingIndicator n := by
      rw [← isTypingIndicator_unstyled m, ← isTypingIndicator_unstyled n, e]
    rw [← hc]
    exact h9 m hm (by rw [hi]; exact hty)

theorem inv_initial (s : State) (h : IsInitial s) : Inv s := by
  obtain ⟨ht, hp, hq⟩ := h
  refine ⟨?_, ?_, ?_, ?_, ?_, ?_, ?_, ?_, ?_⟩ <;> simp [ht, hp, hq]

theorem inv_appendMessage (html : String → Fragment) (t sender : String) (s : State)
    (h : Inv s) (hp : s.pending = []) : Inv (appendMessage html t sender s) := by
  obtain ⟨h1, h2, h3, h4, h5, h6, h7, h8, h9⟩ := h
  have hf : ∀ c : Fragment, isTypingIndicator
      { ref := s.nextRef, className := "message " ++ sender, id := "",
        childClassName := "message-content", innerHTML := formatMessage t,
        content := c, welcomeHidden := false } = false := by
    intro c; simp [isTypingIndicator]
  have hfil : (appendMessage html t sender s).transcript.filter isTypingIndicator
      = s.transcript.filter isTypingIndicator := by
    simp [appendMessage, List.filter_append, List.filter_cons, hf]
  refine ⟨?_, ?_, h3, h4, ?_, ?_, ?_, ?_, ?_⟩
  · intro n hn
    simp only [appendMessage, List.mem_append, List.mem_singleton] at hn
    rcases hn with hn | hn
    · exact Nat.lt_succ_of_lt (h1 n hn)
    · subst hn; exact Nat.lt_succ_self _
  · simp only [appendMessage, List.map_append, List.map_cons, List.map_nil]
    rw [List.nodup_append]
    refine ⟨h2, List.nodup_singleton _, ?_⟩
    intro r hr hr'
    simp only [List.mem_singleton] at hr'
    obtain ⟨n, hn, rfl⟩ := List.mem_map.mp hr
    have := h1 n hn
    omega
  · intro hne; exact absurd hp hne
  · rw [hfil]; exact h6
  · rw [hfil]; exact h7
  · intro hne; exact absurd hp hne
  · intro n hn hty
    simp only [appendMessage, List.mem_append, List.mem_singleton] at hn
    rcases hn with hn | hn
    · exact h9 n hn hty
    · subst hn
      rw [hf] at hty
      exact absurd hty (by decide)

theorem inv_appendAll (html : String → Fragment) (texts : List String) (s : State)
    (h : Inv s) (hp : s.pending = []) : Inv (appendAll html texts s) := by
  induction texts generalizing s with
  | nil => exact h
  | cons t texts ih => exact ih _ (inv_appendMessage html t "assistant" s h hp) hp

theorem inv_hideWelcomeMessage (s s' : State) (h : Inv s)
    (hw : hideWelcomeMessage s = some s') : Inv s' := by
  unfold hideWelcomeMessage at hw
  split at hw
  · exact absurd hw (by simp)
  · split at hw
    · cases hw
      exact inv_congr s _ rfl rfl rfl rfl h
    · split at hw
      · cases hw
        exact inv_congr s _ (hideFirst_unstyled s.transcript) rfl rfl rfl h
      · cases hw
        exact inv_congr s _ rfl rfl rfl rfl h

theorem inv_setFlag (s : State) (h : Inv s) :
    Inv { s with isProcessing := true, sendDisabled := true } := by
  obtain ⟨h1, h2, h3, h4, h5, h6, h7, h8, h9⟩ := h
  exact ⟨h1, h2, h3, fun _ => rfl, h5, h6, fun _ => rfl, h8, h9⟩

theorem withIndicator_eq (s : State) :
    withIndicator s = { s with transcript := s.transcript ++ [indicatorNode s.nextRef]
                               nextRef := s.nextRef + 1 } := rfl

theorem inv_issue (s : State) (h : Inv s) (hp : s.pending = [])
    (hflag : s.isProcessing = true) (hnone : s.transcript.filter isTypingIndicator = [])
    (hc : createElementShadowed s = false) (q : String) (lang : PropValue) :
    Inv (issueFetch q lang s.nextRef
      { s with transcript := s.transcript ++ [indicatorNode s.nextRef]
               nextRef := s.nextRef + 1 }) := by
  obtain ⟨h1, h2, h3, h4, h5, h6, h7, h8, h9⟩ := h
  have hi : isTypingIndicator (indicatorNode s.nextRef) = true := by
    simp [isTypingIndicator, indicatorNode]
  have hfil : (s.transcript ++ [indicatorNode s.nextRef]).filter isTypingIndicator
      = [indicatorNode s.nextRef] := by
    simp [List.filter_append, hnone, List.filter_cons, hi]
  refine ⟨?_, ?_, ?_, ?_, ?_, ?_, ?_, ?_, ?_⟩
  · intro n hn
    simp only [issueFetch, List.mem_append, List.mem_singleton] at hn
    rcases hn with hn | hn
    · exact Nat.lt_succ_of_lt (h1 n hn)
    · subst hn; exact Nat.lt_succ_self _
  · simp only [issueFetch, List.map_append, List.map_cons, List.map_nil]
    rw [List.nodup_append]
    refine ⟨h2, List.nodup_singleton _, ?_⟩
    intro r hr hr'
    simp only [List.mem_singleton, indicatorNode] at hr'
    obtain ⟨n, hn, rfl⟩ := List.mem_map.mp hr
    have := h1 n hn
    omega
  · simp [issueFetch, hp]
  · intro _; exact hflag
  · intro _
    show ((s.transcript ++ [indicatorNode s.nextRef]).filter isTypingIndicator).map DomNode.ref
      = (s.pending ++ _).map Pending.typingIndicator
    rw [hfil, hp]
    rfl
  · show ((s.transcript ++ [indicatorNode s.nextRef]).filter isTypingIndicator).length ≤ 1
    rw [hfil]; exact Nat.le_refl _
  · intro _; exact hflag
  · intro _
    show (s.transcript ++ [indicatorNode s.nextRef]).any _ = false
    rw [List.any_append]
    have : s.transcript.any (fun n => n.content.shadowsCreateElement) = false := hc
    rw [this]
    rfl
  · intro n hn hty
    simp only [issueFetch, List.mem_append, List.mem_singleton] at hn
    rcases hn with hn | hn
    · exact h9 n hn hty
    · subst hn; rfl

theorem inv_indicator (s : State) (h : Inv s) (hp : s.pending = [])
    (hflag : s.isProcessing = true) (hnone : s.transcript.filter isTypingIndicator = []) :
    Inv { s with transcript := s.transcript ++ [indicatorNode s.nextRef]
                 nextRef := s.nextRef + 1 } := by
  obtain ⟨h1, h2, h3, h4, h5, h6, h7, h8, h9⟩ := h
  have hi : isTypingIndicator (indicatorNode s.nextRef) = true := by
    simp [isTypingIndicator, indicatorNode]
  have hfil : (s.transcript ++ [indicatorNode s.nextRef]).filter isTypingIndicator
      = [indicatorNode s.nextRef] := by
    simp [List.filter_append, hnone, List.filter_cons, hi]
  refine ⟨?_, ?_, h3, h4, ?_, ?_, ?_, ?_, ?_⟩
  · intro n hn
    simp only [List.mem_append, List.mem_singleton] at hn
    rcases hn with hn | hn
    · exact Nat.lt_succ_of_lt (h1 n hn)
    · subst hn; exact Nat.lt_succ_self _
  · simp only [List.map_append, List.map_cons, List.map_nil]
    rw [List.nodup_append]
    refine ⟨h2, List.nodup_singleton _, ?_⟩
    intro r hr hr'
    simp only [List.mem_singleton, indicatorNode] at hr'
    obtain ⟨n, hn, rfl⟩ := List.mem_map.mp hr
    have := h1 n hn
    omega
  · intro hne; exact absurd hp hne
  · show ((s.transcript ++ [indicatorNode s.nextRef]).filter isTypingIndicator).length ≤ 1
    rw [hfil]; exact Nat.le_refl _
  · intro _; exact hflag
  · intro hne; exact absurd hp hne
  · intro n hn hty
    simp only [List.mem_append, List.mem_singleton] at hn
    rcases hn with hn | hn
    · exact h9 n hn hty
    · subst hn; rfl

theorem addMessage_eq (html : String → Fragment) (t sender : String) (s s' : State)
    (ha : addMessage html t sender s = some s') :
    createElementShadowed s = false ∧ s' = appendMessage html t sender s := by
  unfold addMessage at ha
  split at ha
  · exact absurd ha (by simp)
  · rename_i hc
    exact ⟨by simpa using hc, (Option.some.inj ha).symm⟩

theorem addMessage_none (html : String → Fragment) (t sender : String) (s : State)
    (ha : addMessage html t sender s = none) : createElementShadowed s = true := by
  unfold addMessage at ha
  cases hx : createElementShadowed s with
  | true => rfl
  | false => simp [hx] at ha

theorem hideWelcomeMessage_isSome (s : State) (h : querySelectorShadowed s = false) :
    (hideWelcomeMessage s).isSome = true := by
  unfold hideWelcomeMessage
  rw [h]
  simp only [Bool.false_eq_true, if_false]
  split
  · rfl
  · split <;> rfl

theorem hideWelcomeMessage_none (s : State) (h : hideWelcomeMessage s = none) :
    querySelectorShadowed s = true := by
  cases hx : querySelectorShadowed s with
  | true => rfl
  | false =>
    have := hideWelcomeMessage_isSome s hx
    rw [h] at this
    exact absurd this (by decide)

theorem hideWelcomeMessage_eq (s s' : State) (hw : hideWelcomeMessage s = some s') :
    querySelectorShadowed s = false ∧
    s'.transcript.map unstyled = s.transcript.map unstyled ∧
    s'.nextRef = s.nextRef ∧ s'.pending = s.pending ∧ s'.isProcessing = s.isProcessing ∧
    s'.inputValue = s.inputValue ∧ s'.sendDisabled = s.sendDisabled ∧
    s'.languageSelect = s.languageSelect ∧ s'.selectBeforeChat = s.selectBeforeChat := by
  unfold hideWelcomeMessage at hw
  split at hw
  · exact absurd hw (by simp)
  · rename_i hq
    refine ⟨by simpa using hq, ?_⟩
    split at hw
    · cases hw; exact ⟨rfl, rfl, rfl, rfl, rfl, rfl, rfl, rfl⟩
    · split at hw
      · cases hw
        exact ⟨hideFirst_unstyled s.transcript, rfl, rfl, rfl, rfl, rfl, rfl, rfl⟩
      · cases hw; exact ⟨rfl, rfl, rfl, rfl, rfl, rfl, rfl, rfl⟩

theorem filter_nil_of_unstyled (t t' : List DomNode)
    (h : t'.map unstyled = t.map unstyled) (hn : t.filter isTypingIndicator = []) :
    t'.filter isTypingIndicator = [] := by
  have := filter_eq_of_unstyled isTypingIndicator isTypingIndicator_unstyled t t' h
  rw [hn] at this
  simpa using this

theorem addTypingIndicator_of_shadowed (s : State) (h : createElementShadowed s = true) :
    addTypingIndicator s = none := by
  simp [addTypingIndicator, h]

theorem addTypingIndicator_of_free (s : State) (h : createElementShadowed s = false) :
    addTypingIndicator s = some (withIndicator s, s.nextRef) := by
  simp [addTypingIndicator, h]

theorem submitHandler_cases (html : String → Fragment) (s : State)
    (hp : s.isProcessing = false) (hq : trim s.inputValue ≠ "") :
    (createElementShadowed s = true ∧ submitHandler html s = s) ∨
    (createElementShadowed s = false ∧
      querySelectorShadowed (clearInput (appendMessage html (trim s.inputValue) "user" s))
        = true ∧
      submitHandler html s = clearInput (appendMessage html (trim s.inputValue) "user" s)) ∨
    (createElementShadowed s = false ∧
      ∃ s3, hideWelcomeMessage (clearInput (appendMessage html (trim s.inputValue) "user" s))
          = some s3 ∧
        ((createElementShadowed (setProcessing s3) = true ∧
            submitHandler html s = setProcessing s3) ∨
         (createElementShadowed (setProcessing s3) = false ∧
            getElementByIdShadowed (withIndicator (setProcessing s3)) = true ∧
            submitHandler html s = withIndicator (setProcessing s3)) ∨
         (createElementShadowed (setProcessing s3) = false ∧
            getElementByIdShadowed (withIndicator (setProcessing s3)) = false ∧
            submitHandler html s
              = issueFetch (trim s.inputValue)
                  (selectedLanguage (withIndicator (setProcessing s3)))
                  (setProcessing s3).nextRef (withIndicator (setProcessing s3))))) := by
  have hc : ¬ (trim s.inputValue = "" ∨ s.isProcessing = true) := by
    simp [hq, hp]
  have hsub : submitHandler html s
      = match beforeFetch html (trim s.inputValue) s with
        | .error dead => dead
        | .ok (s5, indicator, language) =>
          issueFetch (trim s.inputValue) language indicator s5 := by
    unfold submitHandler
    simp only [hc, if_false]
  cases h1 : addMessage html (trim s.inputValue) "user" s with
  | none =>
    left
    refine ⟨addMessage_none html _ _ s h1, ?_⟩
    rw [hsub]
    simp only [beforeFetch, h1]
  | some s1 =>
    right
    obtain ⟨hce, rfl⟩ := addMessage_eq html _ _ s s1 h1
    cases h2 : hideWelcomeMessage
        (clearInput (appendMessage html (trim s.inputValue) "user" s)) with
    | none =>
      left
      refine ⟨hce, hideWelcomeMessage_none _ h2, ?_⟩
      rw [hsub]
      simp only [beforeFetch, h1, h2]
    | some s3 =>
      right
      refine ⟨hce, s3, rfl, ?_⟩
      cases hx : createElementShadowed (setProcessing s3) with
      | true =>
        left
        refine ⟨rfl, ?_⟩
        rw [hsub]
        simp only [beforeFetch, h1, h2, addTypingIndicator_of_shadowed _ hx]
      | false =>
        right
        cases hg : getElementByIdShadowed (withIndicator (setProcessing s3)) with
        | true =>
          left
          refine ⟨rfl, rfl, ?_⟩
          rw [hsub]
          simp only [beforeFetch, h1, h2, addTypingIndicator_of_free _ hx, hg, if_true]
        | false =>
          right
          refine ⟨rfl, rfl, ?_⟩
          rw [hsub]
          simp only [beforeFetch, h1, h2, addTypingIndicator_of_free _ hx, hg,
            Bool.false_eq_true, if_false]

theorem inv_submitHandler (html : String → Fragment) (s : State) (h : Inv s) :
    Inv (submitHandler html s) := by
  by_cases hc : trim s.inputValue = "" ∨ s.isProcessing = true
  · rw [(submitHandler_skip html s hc)]
    exact h
  · have hp : s.isProcessing = false := by
      cases hb : s.isProcessing with
      | true => exact absurd (Or.inr hb) hc
      | false => rfl
    have hq : trim s.inputValue ≠ "" := fun e => hc (Or.inl e)
    have hpend : s.pending = [] := by
      by_contra hne
      have := h.2.2.2.1 hne
      rw [hp] at this
      exact absurd this (by decide)
    have hnone : s.transcript.filter isTypingIndicator = [] := by
      by_contra hne
      have := h.2.2.2.2.2.2.1 hne
      rw [hp] at this
      exact absurd this (by decide)
    have hi1 : Inv (clearInput (appendMessage html (trim s.inputValue) "user" s)) :=
      inv_congr _ _ rfl rfl rfl rfl (inv_appendMessage html _ "user" s h hpend)
    have hn1 : (clearInput (appendMessage html (trim s.inputValue) "user" s)).transcript.filter
        isTypingIndicator = [] := by
      show (s.transcript ++ _).filter isTypingIndicator = []
      simp [List.filter_append, hnone, List.filter_cons, isTypingIndicator]
    rcases submitHandler_cases html s hp hq with ⟨-, e⟩ | ⟨-, -, e⟩ | ⟨-, s3, h3, hrest⟩
    · rw [e]; exact h
    · rw [e]; exact hi1
    · obtain ⟨-, ht, hn, hpd, hf, -⟩ := hideWelcomeMessage_eq _ s3 h3
      have hi3 : Inv s3 := inv_congr _ _ ht hn hpd hf hi1
      have hp3 : s3.pending = [] := by rw [hpd]; exact hpend
      have hn3 : s3.transcript.filter isTypingIndicator = [] :=
        filter_nil_of_unstyled _ _ ht hn1
      have hi4 : Inv (setProcessing s3) := inv_setFlag s3 hi3
      rcases hrest with ⟨-, e⟩ | ⟨-, -, e⟩ | ⟨hx, -, e⟩
      · rw [e]; exact hi4
      · rw [e]; exact inv_indicator (setProcessing s3) hi4 hp3 rfl hn3
      · rw [e]; exact inv_issue (setProcessing s3) hi4 hp3 rfl hn3 hx _ _

theorem pending_of_get (s : State) (i : Nat) (p : Pending) (h3 : s.pending.length ≤ 1)
    (hg : s.pending.get? i = some p) : s.pending = [p] ∧ s.pending.eraseIdx i = [] := by
  cases hpd : s.pending with
  | nil => rw [hpd] at hg; simp at hg
  | cons a rest =>
    cases rest with
    | nil =>
      rw [hpd] at hg
      cases i with
      | zero =>
        simp only [List.get?_cons_zero, Option.some.injEq] at hg
        subst hg
        exact ⟨rfl, rfl⟩
      | succ j => simp at hg
    | cons b r => rw [hpd] at h3; simp at h3

theorem indicator_lt (s : State) (p : Pending) (h : Inv s) (hp : s.pending = [p]) :
    p.typingIndicator < s.nextRef := by
  obtain ⟨h1, -, -, -, h5, -⟩ := h
  have hne : s.pending ≠ [] := by rw [hp]; simp
  have hm : p.typingIndicator ∈ s.pending.map Pending.typingIndicator := by
    rw [hp]; simp
  rw [← h5 hne] at hm
  obtain ⟨n, hn, hr⟩ := List.mem_map.mp hm
  rw [← hr]
  exact h1 n (List.mem_of_mem_filter hn)

theorem inv_settle_base (s : State) (p : Pending) (h : Inv s) (hp : s.pending = [p]) :
    Inv (removeTypingIndicator p.typingIndicator (finallyBlock { s with pending := [] })) := by
  obtain ⟨h1, h2, -, -, h5, -, -, -, h9⟩ := h
  have hne : s.pending ≠ [] := by rw [hp]; simp
  have hall : ∀ n ∈ s.transcript, isTypingIndicator n = true → n.ref = p.typingIndicator := by
    intro n hn ht
    have hm : n.ref ∈ (s.transcript.filter isTypingIndicator).map DomNode.ref :=
      List.mem_map.mpr ⟨n, List.mem_filter.mpr ⟨hn, ht⟩, rfl⟩
    rw [h5 hne, hp] at hm
    simpa using hm
  have hnil : (s.transcript.filter (fun n => n.ref != p.typingIndicator)).filter
      isTypingIndicator = [] := by
    rw [List.filter_eq_nil_iff]
    intro n hn ht
    have hn' := List.mem_filter.mp hn
    have := hall n hn'.1 ht
    simp [this] at hn'
  refine ⟨?_, ?_, ?_, ?_, ?_, ?_, ?_, ?_, ?_⟩
  · intro n hn
    exact h1 n (List.mem_of_mem_filter hn)
  · exact List.Nodup.sublist (List.Sublist.map _ (List.filter_sublist _)) h2
  · simp [removeTypingIndicator, finallyBlock]
  · intro hx; exact absurd rfl hx
  · intro hx; exact absurd rfl hx
  · show ((s.transcript.filter (fun n => n.ref != p.typingIndicator)).filter
        isTypingIndicator).length ≤ 1
    rw [hnil]; exact Nat.zero_le _
  · intro hx
    exact absurd hnil hx
  · intro hx; exact absurd rfl hx
  · intro n hn hty
    exact h9 n (List.mem_of_mem_filter hn) hty

theorem inv_step (html : String → Fragment) (s : State) (ev : Event) (h : Inv s) :
    Inv (step html s ev) := by
  cases ev with
  | input v => exact inv_congr s _ rfl rfl rfl rfl h
  | selectLanguage v => exact inv_congr s _ rfl rfl rfl rfl h
  | submit => exact inv_submitHandler html s h
  | enterKey =>
    show Inv (if dispatchEventShadowed s then s else submitHandler html s)
    split
    · exact h
    · exact inv_submitHandler html s h
  | askExample t =>
    have h' : Inv { s with inputValue := t, inputFocused := true } :=
      inv_congr s _ rfl rfl rfl rfl h
    show Inv (if dispatchEventShadowed { s with inputValue := t, inputFocused := true }
      then { s with inputValue := t, inputFocused := true }
      else submitHandler html { s with inputValue := t, inputFocused := true })
    split
    · exact h'
    · exact inv_submitHandler html _ h'
  | settle i o =>
    cases hg : s.pending.get? i with
    | none => simp only [step, hg]; exact h
    | some p =>
      simp only [step, hg]
      obtain ⟨hp, he⟩ := pending_of_get s i p h.2.2.1 hg
      rw [he]
      have hlt : p.typingIndicator < s.nextRef := indicator_lt s p h hp
      obtain ⟨texts, ht⟩ := resume_eq html p.typingIndicator o { s with pending := [] } hlt
      rw [ht]
      exact inv_appendAll html texts _ (inv_settle_base s p h hp) rfl

theorem inv_reachable (html : String → Fragment) (s : State) (h : Reachable html s) :
    Inv s := by
  induction h with
  | init s hi => exact inv_initial s hi
  | step s ev _ ih => exact inv_step html s ev ih

/-! ## The transcript only grows -/

theorem userNode_eq (html : String → Fragment) (q : String) (s : State) :
    (appendMessage html q "user" s).transcript
      = s.transcript ++ [userNode s.nextRef (formatMessage q) (fragmentOf html (formatMessage q))] := by
  simp [appendMessage, userNode]

theorem assistantNode_eq (html : String → Fragment) (a : String) (s : State) :
    (appendMessage html a "assistant" s).transcript
      = s.transcript
        ++ [assistantNode s.nextRef (formatMessage a) (fragmentOf html (formatMessage a))] := by
  simp [appendMessage, assistantNode]

theorem unstyled_prefix_submit_user (html : String → Fragment) (s : State)
    (hp : s.isProcessing = false) (hq : trim s.inputValue ≠ "")
    (hc : createElementShadowed s = false) :
    (s.transcript ++ [userNode s.nextRef (formatMessage (trim s.inputValue))
        (fragmentOf html (formatMessage (trim s.inputValue)))]).map unstyled
      <+: (submitHandler html s).transcript.map unstyled := by
  rw [← userNode_eq html (trim s.inputValue) s]
  rcases submitHandler_cases html s hp hq with ⟨hx, -⟩ | ⟨-, -, e⟩ | ⟨-, s3, h3, hrest⟩
  · rw [hc] at hx; exact absurd hx (by decide)
  · rw [e]; exact List.prefix_refl _
  · obtain ⟨-, ht, -⟩ := hideWelcomeMessage_eq _ s3 h3
    have ht' : s3.transcript.map unstyled
        = (appendMessage html (trim s.inputValue) "user" s).transcript.map unstyled := ht
    rcases hrest with ⟨-, e⟩ | ⟨-, -, e⟩ | ⟨-, -, e⟩
    · rw [e, ← ht']; exact List.prefix_refl _
    · rw [e, ← ht']
      show s3.transcript.map unstyled <+: (s3.transcript ++ _).map unstyled
      rw [List.map_append]; exact List.prefix_append _ _
    · rw [e, ← ht']
      show s3.transcript.map unstyled <+: (s3.transcript ++ _).map unstyled
      rw [List.map_append]; exact List.prefix_append _ _

theorem unstyled_prefix_submit (html : String → Fragment) (s : State) :
    s.transcript.map unstyled <+: (submitHandler html s).transcript.map unstyled := by
  by_cases hc : trim s.inputValue = "" ∨ s.isProcessing = true
  · rw [submitHandler_skip html s hc]
  · have hp : s.isProcessing = false := by
      cases hb : s.isProcessing with
      | true => exact absurd (Or.inr hb) hc
      | false => rfl
    have hq : trim s.inputValue ≠ "" := fun e => hc (Or.inl e)
    cases hx : createElementShadowed s with
    | true =>
      rcases submitHandler_cases html s hp hq with ⟨-, e⟩ | ⟨hx', -⟩ | ⟨hx', -⟩
      · rw [e]
      · rw [hx] at hx'; exact absurd hx' (by decide)
      · rw [hx] at hx'; exact absurd hx' (by decide)
    | false =>
      have := unstyled_prefix_submit_user html s hp hq hx
      rw [List.map_append] at this
      exact List.IsPrefix.trans (List.prefix_append _ _) this

theorem messages_unstyled (t : List DomNode) :
    (messages t).map unstyled = (t.map unstyled).filter (fun n => !isTypingIndicator n) := by
  unfold messages
  rw [List.filter_map]
  rfl

theorem messages_prefix_of_unstyled (t t' : List DomNode)
    (h : t.map unstyled <+: t'.map unstyled) :
    (messages t).map unstyled <+: (messages t').map unstyled := by
  rw [messages_unstyled, messages_unstyled]
  exact List.IsPrefix.filter _ h

theorem ref_is_indicator (s : State) (p : Pending) (h : Inv s) (hp : s.pending = [p])
    (n : DomNode) (hn : n ∈ s.transcript) :
    n.ref = p.typingIndicator ↔ isTypingIndicator n = true := by
  obtain ⟨-, h2, -, -, h5, -⟩ := h
  have hne : s.pending ≠ [] := by rw [hp]; simp
  have h5' := h5 hne
  rw [hp] at h5'
  constructor
  · intro hr
    have hm : p.typingIndicator ∈ (s.transcript.filter isTypingIndicator).map DomNode.ref := by
      rw [h5']; simp
    obtain ⟨m, hmf, hmr⟩ := List.mem_map.mp hm
    have hmt := List.mem_filter.mp hmf
    have : n = m := List.inj_on_of_nodup_map h2 hn hmt.1 (by rw [hr, hmr])
    rw [this]; exact hmt.2
  · intro ht
    have hm : n.ref ∈ (s.transcript.filter isTypingIndicator).map DomNode.ref :=
      List.mem_map.mpr ⟨n, List.mem_filter.mpr ⟨hn, ht⟩, rfl⟩
    rw [h5'] at hm
    simpa using hm

theorem remove_eq_messages (s : State) (p : Pending) (h : Inv s) (hp : s.pending = [p]) :
    s.transcript.filter (fun n => n.ref != p.typingIndicator) = messages s.transcript := by
  unfold messages
  apply List.filter_congr
  intro n hn
  have := ref_is_indicator s p h hp n hn
  by_cases hr : n.ref = p.typingIndicator
  · simp [hr, this.mp hr]
  · have ht : isTypingIndicator n = false := by
      cases hb : isTypingIndicator n with
      | true => exact absurd (this.mpr hb) hr
      | false => rfl
    simp [hr, ht]

theorem messages_append (a b : List DomNode) : messages (a ++ b) = messages a ++ messages b := by
  simp [messages, List.filter_append]

theorem messages_messages (a : List DomNode) : messages (messages a) = messages a := by
  simp [messages, List.filter_filter]

theorem appendAll_transcript (html : String → Fragment) (texts : List String) (s : State) :
    ∃ added, (appendAll html texts s).transcript = s.transcript ++ added := by
  induction texts generalizing s with
  | nil => exact ⟨[], by simp [appendAll]⟩
  | cons t texts ih =>
    obtain ⟨added, ha⟩ := ih (appendMessage html t "assistant" s)
    refine ⟨assistantNode s.nextRef (formatMessage t) (fragmentOf html (formatMessage t))
      :: added, ?_⟩
    show (appendAll html texts (appendMessage html t "assistant" s)).transcript = _
    rw [ha, assistantNode_eq]
    simp

theorem appendAll_isProcessing (html : String → Fragment) (texts : List String) (s : State) :
    (appendAll html texts s).isProcessing = s.isProcessing ∧
    (appendAll html texts s).pending = s.pending := by
  induction texts generalizing s with
  | nil => exact ⟨rfl, rfl⟩
  | cons t texts ih => exact ih (appendMessage html t "assistant" s)

/-- What a settle event that finds its handler leaves behind. -/
theorem settle_shape (html : String → Fragment) (s : State) (h : Inv s) (i : Nat)
    (p : Pending) (hg : s.pending.get? i = some p) (o : Outcome) :
    ∃ added,
      (step html s (.settle i o)).transcript = messages s.transcript ++ added ∧
      (step html s (.settle i o)).isProcessing = false ∧
      (step html s (.settle i o)).pending = [] := by
  obtain ⟨hp, he⟩ := pending_of_get s i p h.2.2.1 hg
  have hlt : p.typingIndicator < s.nextRef := indicator_lt s p h hp
  obtain ⟨texts, ht⟩ := resume_eq html p.typingIndicator o { s with pending := [] } hlt
  have hs : step html s (.settle i o)
      = appendAll html texts
          (removeTypingIndicator p.typingIndicator (finallyBlock { s with pending := [] })) := by
    simp only [step, hg, he, ht]
  obtain ⟨added, ha⟩ := appendAll_transcript html texts
    (removeTypingIndicator p.typingIndicator (finallyBlock { s with pending := [] }))
  have hrem : (removeTypingIndicator p.typingIndicator
      (finallyBlock { s with pending := [] })).transcript = messages s.transcript :=
    remove_eq_messages s p h hp
  obtain ⟨hf, hq⟩ := appendAll_isProcessing html texts
    (removeTypingIndicator p.typingIndicator (finallyBlock { s with pending := [] }))
  refine ⟨added, ?_, ?_, ?_⟩
  · rw [hs, ha, hrem]
  · rw [hs, hf]; rfl
  · rw [hs, hq]; rfl

theorem messages_prefix_step (html : String → Fragment) (s : State) (h : Inv s) (ev : Event) :
    (messages s.transcript).map unstyled
      <+: (messages (step html s ev).transcript).map unstyled := by
  cases ev with
  | input v => exact List.prefix_refl _
  | selectLanguage v => exact List.prefix_refl _
  | submit => exact messages_prefix_of_unstyled _ _ (unstyled_prefix_submit html s)
  | enterKey =>
    show _ <+: (messages (if dispatchEventShadowed s then s
      else submitHandler html s).transcript).map unstyled
    split
    · exact List.prefix_refl _
    · exact messages_prefix_of_unstyled _ _ (unstyled_prefix_submit html s)
  | askExample t =>
    show _ <+: (messages
      (if dispatchEventShadowed { s with inputValue := t, inputFocused := true }
        then { s with inputValue := t, inputFocused := true }
        else submitHandler html { s with inputValue := t, inputFocused := true }).transcript).map
          unstyled
    split
    · exact List.prefix_refl _
    · exact messages_prefix_of_unstyled _ _
        (unstyled_prefix_submit html { s with inputValue := t, inputFocused := true })
  | settle i o =>
    cases hg : s.pending.get? i with
    | none => simp only [step, hg]; exact List.prefix_refl _
    | some p =>
      obtain ⟨added, ht, -, -⟩ := settle_shape html s h i p hg o
      rw [ht, messages_append, messages_messages, List.map_append]
      exact List.prefix_append _ _

theorem content_kept (html : String → Fragment) (s : State) (h : Inv s) (ev : Event)
    (n : DomNode) (hn : n ∈ s.transcript) :
    n.content = Fragment.inert ∨ ∃ m ∈ (step html s ev).transcript, m.content = n.content := by
  cases hty : isTypingIndicator n with
  | true => exact Or.inl (h.2.2.2.2.2.2.2.2 n hn hty)
  | false =>
    right
    have hm : unstyled n ∈ (messages s.transcript).map unstyled :=
      List.mem_map.mpr ⟨n, List.mem_filter.mpr ⟨hn, by simp [hty]⟩, rfl⟩
    have hm' := List.IsPrefix.mem hm (messages_prefix_step html s h ev)
    obtain ⟨m, hmm, e⟩ := List.mem_map.mp hm'
    have e' : (unstyled m).content = (unstyled n).content := congrArg DomNode.content e
    exact ⟨m, List.mem_of_mem_filter hmm, e'⟩

theorem unshadowed_back (html : String → Fragment) (s : State) (h : Inv s) (ev : Event)
    (hu : Unshadowed (step html s ev)) : Unshadowed s := by
  intro n hn
  rcases content_kept html s h ev n hn with hi | ⟨m, hm, e⟩
  · rw [hi]; exact ⟨rfl, rfl⟩
  · rw [← e]; exact hu m hm

theorem unshadowed_free (s : State) (hu : Unshadowed s) :
    createElementShadowed s = false ∧ getElementByIdShadowed s = false := by
  unfold createElementShadowed getElementByIdShadowed
  constructor
  · rw [List.any_eq_false]
    intro n hn
    simp [(hu n hn).1]
  · rw [List.any_eq_false]
    intro n hn
    simp [(hu n hn).2]

theorem flag_pending_submit (html : String → Fragment) (s : State)
    (ih : s.isProcessing = true → s.pending ≠ [])
    (hu : Unshadowed (submitHandler html s))
    (hf : (submitHandler html s).isProcessing = true) :
    (submitHandler html s).pending ≠ [] := by
  by_cases hc : trim s.inputValue = "" ∨ s.isProcessing = true
  · rw [submitHandler_skip html s hc] at hf ⊢
    exact ih hf
  · have hp : s.isProcessing = false := by
      cases hb : s.isProcessing with
      | true => exact absurd (Or.inr hb) hc
      | false => rfl
    have hq : trim s.inputValue ≠ "" := fun e => hc (Or.inl e)
    obtain ⟨hfc, hfg⟩ := unshadowed_free _ hu
    rcases submitHandler_cases html s hp hq with ⟨-, e⟩ | ⟨-, -, e⟩ | ⟨-, s3, h3, hrest⟩
    · rw [e] at hf; rw [hp] at hf; exact absurd hf (by decide)
    · rw [e] at hf
      have : (clearInput (appendMessage html (trim s.inputValue) "user" s)).isProcessing
          = s.isProcessing := rfl
      rw [this, hp] at hf; exact absurd hf (by decide)
    · rcases hrest with ⟨hx, e⟩ | ⟨-, hx, e⟩ | ⟨-, -, e⟩
      · rw [e] at hfc; rw [hfc] at hx; exact absurd hx (by decide)
      · rw [e] at hfg; rw [hfg] at hx; exact absurd hx (by decide)
      · rw [e]; simp [issueFetch]

theorem flag_pending (html : String → Fragment) (s : State) (h : Reachable html s) :
    Unshadowed s → s.isProcessing = true → s.pending ≠ [] := by
  induction h with
  | init s hi =>
    intro _ hf
    rw [hi.2.1] at hf
    exact absurd hf (by decide)
  | step s ev hr ih =>
    intro hu hf
    have hinv := inv_reachable html s hr
    have ih' := ih (unshadowed_back html s hinv ev hu)
    cases ev with
    | input v => exact ih' hf
    | selectLanguage v => exact ih' hf
    | submit => exact flag_pending_submit html s ih' hu hf
    | enterKey =>
      have hs : step html s .enterKey
          = if dispatchEventShadowed s then s else submitHandler html s := rfl
      by_cases hd : dispatchEventShadowed s = true
      · rw [hs, if_pos hd] at hf ⊢
        exact ih' hf
      · rw [hs, if_neg hd] at hu hf ⊢
        exact flag_pending_submit html s ih' hu hf
    | askExample t =>
      have hs : step html s (.askExample t)
          = if dispatchEventShadowed { s with inputValue := t, inputFocused := true }
            then { s with inputValue := t, inputFocused := true }
            else submitHandler html { s with inputValue := t, inputFocused := true } := rfl
      by_cases hd : dispatchEventShadowed { s with inputValue := t, inputFocused := true } = true
      · rw [hs, if_pos hd] at hf ⊢
        exact ih' hf
      · rw [hs, if_neg hd] at hu hf ⊢
        exact flag_pending_submit html { s with inputValue := t, inputFocused := true } ih' hu hf
    | settle i o =>
      cases hg : s.pending.get? i with
      | none =>
        have hs : step html s (.settle i o) = s := by simp only [step, hg]
        rw [hs] at hf ⊢
        exact ih' hf
      | some p =>
        obtain ⟨added, -, hfl, -⟩ := settle_shape html s hinv i p hg o
        rw [hfl] at hf
        exact absurd hf (by decide)

/-- C3 on the code: after the question `<img name=getElementById>` the handler
has set the flag and appended the typing indicator, then line 24 throws outside
the `try`: the flag stays set with no request in flight. -/
theorem flag_without_request :
    Reachable sampleHtml stuckState ∧
    stuckState.isProcessing = true ∧
    stuckState.pending = [] ∧
    stuckState.transcript
      = [userNode 0 "<img name=getElementById>"
           { Fragment.inert with shadowsGetElementById := true },
         indicatorNode 1] :=
  ⟨Reachable.step _ _ (Reachable.step _ _ (Reachable.init idleState ⟨rfl, rfl, rfl⟩)),
    by decide, by decide, by decide⟩

/-- C3, amended: in every reachable state at most one request is in flight and
the transcript holds at most one typing indicator; a request in flight comes
with the flag set and a typing indicator present, and a typing indicator comes
with the flag set; where no rendered markup shadows `document.createElement` or
`document.getElementById`, a typing indicator is present exactly when the flag
is set, and the flag is set exactly when a request is in flight. -/
theorem reachable_single_flight (html : String → Fragment) (s : State)
    (h : Reachable html s) :
    s.pending.length ≤ 1 ∧
    (s.transcript.filter isTypingIndicator).length ≤ 1 ∧
    (s.pending ≠ [] →
      s.isProcessing = true ∧ ∃ n ∈ s.transcript, isTypingIndicator n = true) ∧
    ((∃ n ∈ s.transcript, isTypingIndicator n = true) → s.isProcessing = true) ∧
    (Unshadowed s →
      ((∃ n ∈ s.transcript, isTypingIndicator n = true) ↔ s.isProcessing = true) ∧
      (s.isProcessing = true ↔ s.pending ≠ [])) := by
  obtain ⟨-, -, h3, h4, h5, h6, h7, -, -⟩ := inv_reachable html s h
  have hex : s.pending ≠ [] → ∃ n ∈ s.transcript, isTypingIndicator n = true := by
    intro hne
    have hlen : (s.transcript.filter isTypingIndicator).length = s.pending.length := by
      have := congrArg List.length (h5 hne)
      simpa using this
    have hpos : 0 < (s.transcript.filter isTypingIndicator).length := by
      rw [hlen]; exact List.length_pos.mpr hne
    obtain ⟨n, hn⟩ := List.exists_mem_of_length_pos hpos
    exact ⟨n, (List.mem_filter.mp hn).1, (List.mem_filter.mp hn).2⟩
  have hflag : (∃ n ∈ s.transcript, isTypingIndicator n = true) → s.isProcessing = true := by
    rintro ⟨n, hn, ht⟩
    apply h7
    intro hnil
    have hm : n ∈ s.transcript.filter isTypingIndicator := List.mem_filter.mpr ⟨hn, ht⟩
    rw [hnil] at hm
    exact absurd hm (List.not_mem_nil n)
  refine ⟨h3, h6, fun hne => ⟨h4 hne, hex hne⟩, hflag, ?_⟩
  intro hu
  have hfp := flag_pending html s h hu
  exact ⟨⟨hflag, fun hf => hex (hfp hf)⟩, ⟨hfp, h4⟩⟩

theorem reachable_waitingState : Reachable sampleHtml waitingState :=
  Reachable.step _ _ (Reachable.step _ _ (Reachable.init idleState ⟨rfl, rfl, rfl⟩))

theorem reachable_single_flight_witness :
    Reachable sampleHtml waitingState ∧ Unshadowed waitingState ∧
    ((∃ n ∈ waitingState.transcript, isTypingIndicator n = true)
      ↔ waitingState.isProcessing = true) ∧
    (waitingState.isProcessing = true ↔ waitingState.pending ≠ []) :=
  ⟨reachable_waitingState, by decide,
    (reachable_single_flight sampleHtml waitingState reachable_waitingState).2.2.2.2
      (by decide)⟩

/-! ## Markup that no lookup observes -/

theorem silent_fields (f : Fragment) (h : f.silent = true) :
    f.shadowsCreateElement = false ∧ f.shadowsGetElementById = false ∧
    f.shadowsQuerySelector = false ∧ f.languageSelect = none ∧ f.welcome = false := by
  unfold Fragment.silent at h
  simp only [Bool.and_eq_true, Bool.not_eq_true', Option.isNone_iff_eq_none] at h
  obtain ⟨⟨⟨⟨h1, h2⟩, h3⟩, h4⟩, h5⟩ := h
  exact ⟨h1, h2, h3, h4, h5⟩

theorem silent_lookups (s : State) (h : Silent s) :
    createElementShadowed s = false ∧ getElementByIdShadowed s = false ∧
    querySelectorShadowed s = false ∧
    s.transcript.any (fun n => n.content.welcome) = false ∧
    s.transcript.findSome? (fun n => n.content.languageSelect) = none := by
  unfold createElementShadowed getElementByIdShadowed querySelectorShadowed
  refine ⟨?_, ?_, ?_, ?_, ?_⟩
  · rw [List.any_eq_false]; intro n hn; simp [(silent_fields _ (h n hn)).1]
  · rw [List.any_eq_false]; intro n hn; simp [(silent_fields _ (h n hn)).2.1]
  · rw [List.any_eq_false]; intro n hn; simp [(silent_fields _ (h n hn)).2.2.1]
  · rw [List.any_eq_false]; intro n hn; simp [(silent_fields _ (h n hn)).2.2.2.2]
  · rw [List.findSome?_eq_none_iff]; intro n hn; exact (silent_fields _ (h n hn)).2.2.2.1

theorem hideWelcomeMessage_silent (s : State) (h : Silent s) :
    hideWelcomeMessage s = some (hideOwnWelcome s) := by
  obtain ⟨-, -, hq, hw, -⟩ := silent_lookups s h
  unfold hideWelcomeMessage
  rw [hq, hw]
  simp only [Bool.false_eq_true, if_false]
  split <;> rfl

theorem selectedLanguage_silent (s : State) (h : Silent s) :
    selectedLanguage s = PropValue.str (s.languageSelect.getD "auto") := by
  obtain ⟨-, -, -, -, hl⟩ := silent_lookups s h
  unfold selectedLanguage findLanguageSelect
  rw [hl]
  cases s.languageSelect <;> cases s.selectBeforeChat <;> rfl

/-- The state an accepted run of the submit handler leaves when neither the
rendered messages nor the new one are observed by its lookups. -/
theorem submitHandler_silent (html : String → Fragment) (s : State)
    (hp : s.isProcessing = false) (hq : trim s.inputValue ≠ "") (hs : Silent s)
    (hm : (fragmentOf html (formatMessage (trim s.inputValue))).silent = true) :
    beforeFetch html (trim s.inputValue) s
      = .ok (withIndicator (setProcessing
          (hideOwnWelcome (clearInput (appendMessage html (trim s.inputValue) "user" s)))),
          s.nextRef + 1, PropValue.str (s.languageSelect.getD "auto")) ∧
    submitHandler html s
      = issueFetch (trim s.inputValue) (PropValue.str (s.languageSelect.getD "auto"))
          (s.nextRef + 1)
          (withIndicator (setProcessing
            (hideOwnWelcome (clearInput (appendMessage html (trim s.inputValue) "user" s))))) := by
  have hc : ¬ (trim s.inputValue = "" ∨ s.isProcessing = true) := by
    simp [hq, hp]
  have hs1 : Silent (clearInput (appendMessage html (trim s.inputValue) "user" s)) := by
    intro n hn
    have hn' : n ∈ s.transcript ++ [_] := hn
    simp only [List.mem_append, List.mem_singleton] at hn'
    rcases hn' with hn' | hn'
    · exact hs n hn'
    · subst hn'; exact hm
  have hs3 : Silent (setProcessing
      (hideOwnWelcome (clearInput (appendMessage html (trim s.inputValue) "user" s)))) := hs1
  have hs5 : Silent (withIndicator (setProcessing
      (hideOwnWelcome (clearInput (appendMessage html (trim s.inputValue) "user" s))))) := by
    intro n hn
    have hn' : n ∈ (appendMessage html (trim s.inputValue) "user" s).transcript ++ [_] := hn
    simp only [List.mem_append, List.mem_singleton] at hn'
    rcases hn' with hn' | hn'
    · exact hs1 n hn'
    · subst hn'; rfl
  have h1 : addMessage html (trim s.inputValue) "user" s
      = some (appendMessage html (trim s.inputValue) "user" s) := by
    simp [addMessage, (silent_lookups s hs).1]
  have h2 := hideWelcomeMessage_silent _ hs1
  have h3 := addTypingIndicator_of_free _ (silent_lookups _ hs3).1
  have h4 := (silent_lookups _ hs5).2.1
  have h5 := selectedLanguage_silent _ hs5
  have hb : beforeFetch html (trim s.inputValue) s
      = .ok (withIndicator (setProcessing
          (hideOwnWelcome (clearInput (appendMessage html (trim s.inputValue) "user" s)))),
          s.nextRef + 1, PropValue.str (s.languageSelect.getD "auto")) := by
    simp only [beforeFetch, h1, h2, h3, h4, Bool.false_eq_true, if_false, h5]
    rfl
  refine ⟨hb, ?_⟩
  unfold submitHandler
  simp only [hc, if_false, hb]

/-- C2 on the code: on a page without selector the question
`<select id="languageSelect"><option value="xx">x</option></select>` is live
markup when line 24 runs, so the request carries the language `xx`, not `auto`;
and after the question `<img name=getElementById>` line 24 throws, so no request
is issued at all. -/
theorem injected_selector_is_read :
    idleState.isProcessing = false ∧ idleState.languageSelect = none ∧
    (submitHandler sampleHtml
      { idleState with
        inputValue := "<select id=\"languageSelect\"><option value=\"xx\">x</option></select>" }
      ).pending.map Pending.language = [PropValue.str "xx"] ∧
    (submitHandler sampleHtml
      { idleState with inputValue := "<img name=getElementById>" }).pending = [] := by
  decide

/-- C2, amended: with the flag clear, a non-empty trimmed input `q`, and neither
the rendered messages nor `formatMessage q` holding an element that a document
lookup of the handler observes, the submit handler up to the `fetch` call
appends one user message with markup `formatMessage q` and right after it one
typing indicator, empties the input, sets the flag, disables the button and
issues one `POST /ask` request carrying `q` and the selector's value (`"auto"`
without selector); when `fetch` is called the user message is already in the
transcript and no request has been added. -/
theorem submitHandler_accepts (html : String → Fragment) (s : State)
    (hp : s.isProcessing = false) (hq : trim s.inputValue ≠ "") (hs : Silent s)
    (hm : (fragmentOf html (formatMessage (trim s.inputValue))).silent = true) :
    (submitHandler html s).transcript = s.transcript ++
      [userNode s.nextRef (formatMessage (trim s.inputValue))
          (fragmentOf html (formatMessage (trim s.inputValue))),
        indicatorNode (s.nextRef + 1)] ∧
    (submitHandler html s).inputValue = "" ∧
    (submitHandler html s).isProcessing = true ∧
    (submitHandler html s).sendDisabled = true ∧
    (submitHandler html s).pending = s.pending ++
      [{ url := "/ask", method := "POST", contentType := "application/json",
         question := trim s.inputValue,
         language := PropValue.str (s.languageSelect.getD "auto"),
         typingIndicator := s.nextRef + 1 }] ∧
    (∃ s5,
      beforeFetch html (trim s.inputValue) s
        = .ok (s5, s.nextRef + 1, PropValue.str (s.languageSelect.getD "auto")) ∧
      submitHandler html s
        = issueFetch (trim s.inputValue) (PropValue.str (s.languageSelect.getD "auto"))
            (s.nextRef + 1) s5 ∧
      s5.pending = s.pending ∧
      userNode s.nextRef (formatMessage (trim s.inputValue))
        (fragmentOf html (formatMessage (trim s.inputValue))) ∈ s5.transcript) ∧
    addMessage html (trim s.inputValue) "user" s
      = some (appendMessage html (trim s.inputValue) "user" s) ∧
    (appendMessage html (trim s.inputValue) "user" s).transcript = s.transcript ++
      [userNode s.nextRef (formatMessage (trim s.inputValue))
        (fragmentOf html (formatMessage (trim s.inputValue)))] ∧
    (appendMessage html (trim s.inputValue) "user" s).pending = s.pending := by
  obtain ⟨hb, e⟩ := submitHandler_silent html s hp hq hs hm
  have hu := userNode_eq html (trim s.inputValue) s
  have ht : (withIndicator (setProcessing
      (hideOwnWelcome (clearInput (appendMessage html (trim s.inputValue) "user" s))))).transcript
      = s.transcript ++
        [userNode s.nextRef (formatMessage (trim s.inputValue))
            (fragmentOf html (formatMessage (trim s.inputValue))),
          indicatorNode (s.nextRef + 1)] := by
    show (appendMessage html (trim s.inputValue) "user" s).transcript
      ++ [indicatorNode (s.nextRef + 1)] = _
    rw [hu]; simp
  refine ⟨?_, ?_, ?_, ?_, ?_, ⟨_, hb, e, rfl, ?_⟩, ?_, hu, rfl⟩
  · rw [e]; exact ht
  · rw [e]; rfl
  · rw [e]; rfl
  · rw [e]; rfl
  · rw [e]; rfl
  · rw [ht]; simp
  · simp [addMessage, (silent_lookups s hs).1]

theorem submitHandler_accepts_witness :
    ({ idleState with inputValue := " <b>hi</b> " }).isProcessing = false ∧
    trim ({ idleState with inputValue := " <b>hi</b> " }).inputValue ≠ "" ∧
    Silent { idleState with inputValue := " <b>hi</b> " } ∧
    (submitHandler sampleHtml { idleState with inputValue := " <b>hi</b> " }).transcript
      = [userNode 0 "<b>hi</b>" Fragment.inert, indicatorNode 1] :=
  ⟨by decide, by decide, by decide,
    (submitHandler_accepts sampleHtml { idleState with inputValue := " <b>hi</b> " }
      (by decide) (by decide) (by decide) (by decide)).1⟩

/-! ## Earlier messages stay as they are -/

theorem hideFirst_append_of_none (t l : List DomNode)
    (h : ∀ n ∈ t, n.content.welcome = false) : hideFirst (t ++ l) = t ++ hideFirst l := by
  induction t with
  | nil => rfl
  | cons n t ih =>
    have hn : n.content.welcome = false := h n (by simp)
    have ht : ∀ m ∈ t, m.content.welcome = false := fun m hm => h m (by simp [hm])
    simp only [List.cons_append, hideFirst, hn, Bool.false_eq_true, if_false]
    exact congrArg (List.cons n) (ih ht)

theorem hideWelcomeMessage_prefix (t0 : List DomNode) (u : DomNode) (st s3 : State)
    (hst : st.transcript = t0 ++ [u])
    (hw : (st.welcome.isSome = true ∧ st.welcomeBeforeChat = true) ∨
      ∀ n ∈ t0, n.content.welcome = false)
    (h : hideWelcomeMessage st = some s3) : t0 <+: s3.transcript := by
  unfold hideWelcomeMessage at h
  split at h
  · exact absurd h (by simp)
  · split at h
    · cases h
      show t0 <+: st.transcript
      rw [hst]; exact List.prefix_append _ _
    · rename_i hown
      split at h
      · cases h
        show t0 <+: hideFirst st.transcript
        rcases hw with ⟨h1, h2⟩ | hw
        · exact absurd (by simp [h1, h2]) hown
        · rw [hst, hideFirst_append_of_none t0 [u] hw]
          exact List.prefix_append _ _
      · cases h
        show t0 <+: st.transcript
        rw [hst]; exact List.prefix_append _ _

theorem exact_prefix_submit (html : String → Fragment) (s : State)
    (hw : (s.welcome.isSome = true ∧ s.welcomeBeforeChat = true) ∨
      ∀ n ∈ s.transcript, n.content.welcome = false) :
    s.transcript <+: (submitHandler html s).transcript := by
  by_cases hc : trim s.inputValue = "" ∨ s.isProcessing = true
  · rw [submitHandler_skip html s hc]
  · have hp : s.isProcessing = false := by
      cases hb : s.isProcessing with
      | true => exact absurd (Or.inr hb) hc
      | false => rfl
    have hq : trim s.inputValue ≠ "" := fun e => hc (Or.inl e)
    rcases submitHandler_cases html s hp hq with ⟨-, e⟩ | ⟨-, -, e⟩ | ⟨-, s3, h3, hrest⟩
    · rw [e]
    · rw [e]
      show s.transcript <+: s.transcript ++ _
      exact List.prefix_append _ _
    · have h3p : s.transcript <+: s3.transcript :=
        hideWelcomeMessage_prefix s.transcript _
          (clearInput (appendMessage html (trim s.inputValue) "user" s)) s3 rfl hw h3
      rcases hrest with ⟨-, e⟩ | ⟨-, -, e⟩ | ⟨-, -, e⟩
      · rw [e]; exact h3p
      · rw [e]
        exact List.IsPrefix.trans h3p (List.prefix_append _ _)
      · rw [e]
        exact List.IsPrefix.trans h3p (List.prefix_append _ _)

theorem exact_prefix_step (html : String → Fragment) (s : State) (h : Inv s) (ev : Event)
    (hw : (s.welcome.isSome = true ∧ s.welcomeBeforeChat = true) ∨
      ∀ n ∈ s.transcript, n.content.welcome = false) :
    messages s.transcript <+: messages (step html s ev).transcript ∧
    ∀ n ∈ s.transcript, n ∉ (step html s ev).transcript → isTypingIndicator n = true := by
  have hsub : ∀ st : State, s.transcript <+: st.transcript →
      (messages s.transcript <+: messages st.transcript ∧
        ∀ n ∈ s.transcript, n ∉ st.transcript → isTypingIndicator n = true) := by
    intro st hpre
    exact ⟨List.IsPrefix.filter _ hpre, fun n hn hn' => absurd (List.IsPrefix.mem hn hpre) hn'⟩
  cases ev with
  | input v => exact hsub _ (List.prefix_refl _)
  | selectLanguage v => exact hsub _ (List.prefix_refl _)
  | submit => exact hsub _ (exact_prefix_submit html s hw)
  | enterKey =>
    apply hsub
    show _ <+: (if dispatchEventShadowed s then s else submitHandler html s).transcript
    split
    · exact List.prefix_refl _
    · exact exact_prefix_submit html s hw
  | askExample t =>
    apply hsub
    show _ <+: (if dispatchEventShadowed { s with inputValue := t, inputFocused := true }
        then { s with inputValue := t, inputFocused := true }
        else submitHandler html { s with inputValue := t, inputFocused := true }).transcript
    split
    · exact List.prefix_refl _
    · exact exact_prefix_submit html { s with inputValue := t, inputFocused := true } hw
  | settle i o =>
    cases hg : s.pending.get? i with
    | none =>
      have hs : step html s (.settle i o) = s := by simp only [step, hg]
      rw [hs]
      exact hsub _ (List.prefix_refl _)
    | some p =>
      obtain ⟨added, ht, -, -⟩ := settle_shape html s h i p hg o
      rw [ht, messages_append, messages_messages]
      refine ⟨List.prefix_append _ _, ?_⟩
      intro n hn hn'
      cases hb : isTypingIndicator n with
      | true => rfl
      | false =>
        exfalso
        apply hn'
        apply List.mem_append_left
        exact List.mem_filter.mpr ⟨hn, by simp [hb]⟩

theorem reachable_answeredState : Reachable sampleHtml answeredState :=
  Reachable.step _ _ (Reachable.step _ _
    (Reachable.step _ _ (Reachable.step _ _ (Reachable.init idleState ⟨rfl, rfl, rfl⟩))))

/-- C9 on the code: the page has no welcome element; ` hi ` was answered with
`<p class="welcome-message">A</p>`.  On the next submit line 109 finds that
paragraph inside the earlier answer and line 111 hides it: the earlier message's
content has changed, so the messages before the step are not a prefix of the
messages after it. -/
theorem welcome_hidden_in_earlier_message :
    Reachable sampleHtml answeredState ∧
    answeredState.transcript
      = [userNode 0 "hi" Fragment.inert,
         assistantNode 2 "<p class=\"welcome-message\">A</p>"
           { Fragment.inert with welcome := true }] ∧
    (step sampleHtml answeredState .submit).transcript
      = [userNode 0 "hi" Fragment.inert,
         { assistantNode 2 "<p class=\"welcome-message\">A</p>"
             { Fragment.inert with welcome := true } with welcomeHidden := true },
         userNode 3 "more" Fragment.inert,
         indicatorNode 4] ∧
    ¬ (messages answeredState.transcript
        <+: messages (step sampleHtml answeredState .submit).transcript) :=
  ⟨reachable_answeredState, by decide, by decide, by decide⟩

/-- C9, amended: from a reachable state, no event removes or reorders a user or
assistant message, and each earlier message keeps its identity, sender, markup
and fragment: the messages before the step are a prefix of the messages after
it, apart from the `display` that line 111 may switch off on a
`.welcome-message` element inside one of them.  Where the page's own welcome
element precedes the transcript, or no rendered message holds such an element,
the earlier messages are unchanged node for node and an entry that disappears
from the transcript is a typing indicator. -/
theorem transcript_append_only (html : String → Fragment) (s : State)
    (h : Reachable html s) (ev : Event) :
    (messages s.transcript).map unstyled
      <+: (messages (step html s ev).transcript).map unstyled ∧
    (∀ n ∈ s.transcript, isTypingIndicator n = false →
      ∃ m ∈ (step html s ev).transcript, unstyled m = unstyled n) ∧
    (((s.welcome.isSome = true ∧ s.welcomeBeforeChat = true) ∨
        ∀ n ∈ s.transcript, n.content.welcome = false) →
      messages s.transcript <+: messages (step html s ev).transcript ∧
      ∀ n ∈ s.transcript, n ∉ (step html s ev).transcript → isTypingIndicator n = true) := by
  have hinv := inv_reachable html s h
  have hpre := messages_prefix_step html s hinv ev
  refine ⟨hpre, ?_, exact_prefix_step html s hinv ev⟩
  intro n hn hty
  have hm : unstyled n ∈ (messages s.transcript).map unstyled :=
    List.mem_map.mpr ⟨n, List.mem_filter.mpr ⟨hn, by simp [hty]⟩, rfl⟩
  obtain ⟨m, hmm, e⟩ := List.mem_map.mp (List.IsPrefix.mem hm hpre)
  exact ⟨m, List.mem_of_mem_filter hmm, e⟩

theorem transcript_append_only_witness :
    Reachable sampleHtml waitingState ∧
    (∀ n ∈ waitingState.transcript, n.content.welcome = false) ∧
    messages waitingState.transcript
      <+: messages (step sampleHtml waitingState (.settle 0 .fetchRejected)).transcript :=
  ⟨reachable_waitingState, by decide,
    ((transcript_append_only sampleHtml waitingState reachable_waitingState
      (.settle 0 .fetchRejected)).2.2 (Or.inr (by decide))).1⟩

/-! ## The example-question helper -/

theorem addMessage_focus (html : String → Fragment) (t sender : String) (s : State) (b : Bool) :
    addMessage html t sender { s with inputFocused := b }
      = (addMessage html t sender s).map (fun r => { r with inputFocused := b }) := by
  unfold addMessage
  show (if createElementShadowed s = true then none else _) = _
  split <;> rfl

theorem hideWelcomeMessage_focus (s : State) (b : Bool) :
    hideWelcomeMessage { s with inputFocused := b }
      = (hideWelcomeMessage s).map (fun r => { r with inputFocused := b }) := by
  unfold hideWelcomeMessage
  show (if querySelectorShadowed s = true then none
    else if (s.welcome.isSome && s.welcomeBeforeChat) = true then _
    else if (s.transcript.any fun n => n.content.welcome) = true then _ else _) = _
  split
  · rfl
  · split
    · rfl
    · split <;> rfl

theorem addTypingIndicator_focus (s : State) (b : Bool) :
    addTypingIndicator { s with inputFocused := b }
      = (addTypingIndicator s).map (fun r => ({ r.1 with inputFocused := b }, r.2)) := by
  unfold addTypingIndicator
  show (if createElementShadowed s = true then none else _) = _
  split <;> rfl

theorem submitHandler_focus (html : String → Fragment) (s : State) (b : Bool) :
    submitHandler html { s with inputFocused := b }
      = { submitHandler html s with inputFocused := b } := by
  unfold submitHandler
  by_cases hc : trim s.inputValue = "" ∨ s.isProcessing = true
  · simp only [hc, if_true]
  · simp only [hc, if_false]
    unfold beforeFetch
    rw [addMessage_focus]
    cases h1 : addMessage html (trim s.inputValue) "user" s with
    | none => rfl
    | some s1 =>
      simp only [Option.map_some']
      have e1 : clearInput { s1 with inputFocused := b }
          = { clearInput s1 with inputFocused := b } := rfl
      rw [e1, hideWelcomeMessage_focus]
      cases h2 : hideWelcomeMessage (clearInput s1) with
      | none => rfl
      | some s3 =>
        simp only [Option.map_some']
        have e3 : setProcessing { s3 with inputFocused := b }
            = { setProcessing s3 with inputFocused := b } := rfl
        rw [e3, addTypingIndicator_focus]
        cases h4 : addTypingIndicator (setProcessing s3) with
        | none => rfl
        | some r =>
          obtain ⟨s5, ind⟩ := r
          simp only [Option.map_some']
          have eg : getElementByIdShadowed { s5 with inputFocused := b }
              = getElementByIdShadowed s5 := rfl
          have es : selectedLanguage { s5 with inputFocused := b }
              = selectedLanguage s5 := rfl
          rw [eg, es]
          cases getElementByIdShadowed s5 <;> rfl

/-- C10 on the code: a rendered message `<input form="chatForm"
name="dispatchEvent">` makes `chatForm.dispatchEvent` that input.  Line 120 of
`askExample` then throws: nothing is appended and nothing is sent, while putting
the text in the field and running the handler appends the question and a typing
indicator and issues a request. -/
theorem askExample_blocked :
    Reachable sampleHtml shadowedFormState ∧
    (askExample sampleHtml "What is X?" shadowedFormState).transcript
      = shadowedFormState.transcript ∧
    (askExample sampleHtml "What is X?" shadowedFormState).pending = [] ∧
    (typeAndSubmit sampleHtml "What is X?" shadowedFormState).transcript
      = shadowedFormState.transcript
        ++ [userNode 3 "What is X?" Fragment.inert, indicatorNode 4] ∧
    (typeAndSubmit sampleHtml "What is X?" shadowedFormState).pending.map
      (fun p => p.question) = ["What is X?"] :=
  ⟨Reachable.step _ _ (Reachable.step _ _
      (Reachable.step _ _ (Reachable.init idleState ⟨rfl, rfl, rfl⟩))),
    by decide, by decide, by decide, by decide⟩

/-- C10, amended: in every state in which no rendered element shadows
`chatForm.dispatchEvent`, `askExample` on an element showing `T` leaves the same
transcript, the same processing flag and the same issued requests as putting `T`
in the input field and running the submit handler; for `T = "What is X?"` on an
idle page both append the user message `What is X?` and a typing indicator and
issue one request with that question. -/
theorem askExample_eq_typeAndSubmit (html : String → Fragment) (T : String) (s : State)
    (hd : dispatchEventShadowed s = false) :
    (askExample html T s).transcript = (typeAndSubmit html T s).transcript ∧
    (askExample html T s).isProcessing = (typeAndSubmit html T s).isProcessing ∧
    (askExample html T s).pending = (typeAndSubmit html T s).pending ∧
    (askExample html "What is X?" idleState).transcript
      = [userNode 0 "What is X?" Fragment.inert, indicatorNode 1] ∧
    (typeAndSubmit html "What is X?" idleState).transcript
      = [userNode 0 "What is X?" Fragment.inert, indicatorNode 1] ∧
    (askExample html "What is X?" idleState).pending.map (fun p => p.question)
      = ["What is X?"] ∧
    (typeAndSubmit html "What is X?" idleState).pending.map (fun p => p.question)
      = ["What is X?"] := by
  have h : askExample html T s = { typeAndSubmit html T s with inputFocused := true } := by
    have hd' : dispatchEventShadowed { s with inputValue := T, inputFocused := true }
        = false := hd
    unfold askExample typeAndSubmit
    simp only [hd', Bool.false_eq_true, if_false]
    exact submitHandler_focus html { s with inputValue := T } true
  have hi : askExample html "What is X?" idleState
      = { typeAndSubmit html "What is X?" idleState with inputFocused := true } := by
    unfold askExample typeAndSubmit
    have hd' : dispatchEventShadowed
        { idleState with inputValue := "What is X?", inputFocused := true } = false := rfl
    simp only [hd', Bool.false_eq_true, if_false]
    exact submitHandler_focus html { idleState with inputValue := "What is X?" } true
  have hq : trim ({ idleState with inputValue := "What is X?" } : State).inputValue ≠ "" := by
    decide
  have hf : fragmentOf html
      (formatMessage (trim ({ idleState with inputValue := "What is X?" } : State).inputValue))
      = Fragment.inert := by
    have e : formatMessage
        (trim ({ idleState with inputValue := "What is X?" } : State).inputValue)
        = "What is X?" := by decide
    rw [e]
    unfold fragmentOf
    have : ¬ ('<' ∈ "What is X?".data) := by decide
    simp only [this, if_false]
  obtain ⟨-, e⟩ := submitHandler_silent html { idleState with inputValue := "What is X?" }
    rfl hq (by intro n hn; exact absurd hn (List.not_mem_nil n)) (by rw [hf]; rfl)
  have et : (typeAndSubmit html "What is X?" idleState).transcript
      = [userNode 0 "What is X?" Fragment.inert, indicatorNode 1] := by
    unfold typeAndSubmit
    rw [e]
    show (appendMessage html _ "user" _).transcript ++ [indicatorNode 1] = _
    rw [userNode_eq, hf]
    have e' : formatMessage
        (trim ({ idleState with inputValue := "What is X?" } : State).inputValue)
        = "What is X?" := by decide
    rw [e']
    rfl
  have ep : (typeAndSubmit html "What is X?" idleState).pending.map (fun p => p.question)
      = ["What is X?"] := by
    unfold typeAndSubmit
    rw [e]
    have e' : trim ({ idleState with inputValue := "What is X?" } : State).inputValue
        = "What is X?" := by decide
    rw [e']
    rfl
  refine ⟨by rw [h], by rw [h], by rw [h], ?_, et, ?_, ep⟩
  · rw [hi]; exact et
  · rw [hi]; exact ep

theorem askExample_eq_typeAndSubmit_witness :
    dispatchEventShadowed waitingState = false ∧
    (askExample sampleHtml "again" waitingState).transcript
      = (typeAndSubmit sampleHtml "again" waitingState).transcript :=
  ⟨by decide, (askExample_eq_typeAndSubmit sampleHtml "again" waitingState (by decide)).1⟩

/-! ## Settling a request -/

theorem formatMessage_fallback : formatMessage fallbackText = fallbackText := by
  decide

theorem fragmentOf_fallback (html : String → Fragment) :
    fragmentOf html (formatMessage fallbackText) = Fragment.inert := by
  rw [formatMessage_fallback]
  unfold fragmentOf
  have : ¬ ('<' ∈ fallbackText.data) := by decide
  simp only [this, if_false]

theorem createElementShadowed_remove (ti : Nat) (s : State)
    (h : createElementShadowed s = false) :
    createElementShadowed (removeTypingIndicator ti s) = false := by
  unfold createElementShadowed at h ⊢
  rw [List.any_eq_false] at h ⊢
  intro n hn
  exact h n (List.mem_of_mem_filter hn)

theorem catchBlock_free (html : String → Fragment) (ti : Nat) (s : State)
    (hc : createElementShadowed (removeTypingIndicator ti s) = false) :
    catchBlock html ti s
      = appendMessage html fallbackText "assistant" (removeTypingIndicator ti s) := by
  simp [catchBlock, addMessage, hc]

theorem resume_failed (html : String → Fragment) (ti : Nat) (o : Outcome) (s : State)
    (hf : Failed o = true) (hc : createElementShadowed (removeTypingIndicator ti s) = false) :
    resume html ti o s
      = finallyBlock
          (appendMessage html fallbackText "assistant" (removeTypingIndicator ti s)) := by
  have hcatch : finallyBlock (catchBlock html ti (removeTypingIndicator ti s))
      = finallyBlock
          (appendMessage html fallbackText "assistant" (removeTypingIndicator ti s)) := by
    rw [catchBlock_free html ti _ (by rw [remove_remove]; exact hc), remove_remove]
  cases o with
  | fetchRejected =>
    show finallyBlock (catchBlock html ti s) = _
    rw [catchBlock_free html ti s hc]
  | jsonRejected =>
    show finallyBlock (catchBlock html ti s) = _
    rw [catchBlock_free html ti s hc]
  | parsed data =>
    cases hA : getProp data "answer" with
    | none =>
      simp only [resume, tryBlock, hA, if_true]
      exact hcatch
    | some answer =>
      have hM : addMessageValue html answer "assistant" (removeTypingIndicator ti s)
          = none := by
        unfold addMessageValue
        rw [hc]
        simp only [Bool.false_eq_true, if_false]
        cases answer with
        | none => rfl
        | some j =>
          cases j with
          | str a => simp [Failed, answerText, hA] at hf
          | _ => rfl
      simp only [resume, tryBlock, hA, hM, if_true]
      exact hcatch

theorem resume_answered (html : String → Fragment) (ti : Nat)
    (fields : List (String × Json)) (a : String) (s : State)
    (ha : fields.lookup "answer" = some (.str a))
    (hl : ∀ v, fields.lookup "detected_language" = some v → toStringThrows v = false)
    (hc : createElementShadowed (removeTypingIndicator ti s) = false) :
    resume html ti (.parsed (.obj fields)) s
      = finallyBlock (appendMessage html a "assistant" (removeTypingIndicator ti s)) := by
  have hA : getProp (.obj fields) "answer" = some (some (.str a)) := by
    simp [getProp, ha]
  have hM : addMessageValue html (some (.str a)) "assistant" (removeTypingIndicator ti s)
      = some (appendMessage html a "assistant" (removeTypingIndicator ti s)) := by
    simp [addMessageValue, hc]
  have hD : getProp (.obj fields) "detected_language"
      = some (fields.lookup "detected_language") := rfl
  cases hv : fields.lookup "detected_language" with
  | none =>
    simp [resume, tryBlock, hA, hM, hD, hv, truthy]
  | some v =>
    have ht := hl v hv
    by_cases hx : (truthy (some v) && notEn (some v)) = true
    · simp only [resume, tryBlock, hA, hM, hD, hv, hx, ht, if_true]
      rfl
    · simp only [resume, tryBlock, hA, hM, hD, hv, hx]
      rfl

theorem settle_eq (html : String → Fragment) (s : State) (h : Reachable html s) (i : Nat)
    (p : Pending) (hg : s.pending.get? i = some p) (o : Outcome) (text : String)
    (hres : ∀ st : State, createElementShadowed (removeTypingIndicator p.typingIndicator st)
        = false →
      resume html p.typingIndicator o st
        = finallyBlock
            (appendMessage html text "assistant"
              (removeTypingIndicator p.typingIndicator st))) :
    step html s (.settle i o) =
      { s with
        transcript := messages s.transcript
          ++ [assistantNode s.nextRef (formatMessage text)
                (fragmentOf html (formatMessage text))]
        nextRef := s.nextRef + 1
        isProcessing := false
        sendDisabled := false
        inputFocused := true
        pending := [] } := by
  have hinv := inv_reachable html s h
  obtain ⟨hp, he⟩ := pending_of_get s i p hinv.2.2.1 hg
  have hrem := remove_eq_messages s p hinv hp
  have hne : s.pending ≠ [] := by rw [hp]; simp
  have hfree : createElementShadowed s = false := hinv.2.2.2.2.2.2.2.1 hne
  have hfree' : createElementShadowed
      (removeTypingIndicator p.typingIndicator { s with pending := [] }) = false :=
    createElementShadowed_remove p.typingIndicator { s with pending := [] } hfree
  simp only [step, hg, he, hres _ hfree']
  simp only [finallyBlock, appendMessage, removeTypingIndicator, hrem, assistantNode]
  rfl

/-- C4 on the code: with the typing indicator showing, the response
`{"answer": "ok", "detected_language": {"toString": 0.5}}` leaves two assistant
messages, the answer and then the fallback text, because building the log line
throws inside the `try` block; the same response without `detected_language`
leaves the answer alone. -/
theorem detected_language_adds_fallback :
    Reachable sampleHtml waitingState ∧
    (waitingState.pending.get? 0).isSome = true ∧
    (step sampleHtml waitingState (.settle 0 (.parsed (.obj
        [("answer", .str "ok"),
         ("detected_language", .obj [("toString", .num false)])])))).transcript
      = [userNode 0 "hi" Fragment.inert, assistantNode 2 "ok" Fragment.inert,
         assistantNode 3 fallbackText Fragment.inert] ∧
    (step sampleHtml waitingState
        (.settle 0 (.parsed (.obj [("answer", .str "ok")])))).transcript
      = [userNode 0 "hi" Fragment.inert, assistantNode 2 "ok" Fragment.inert] :=
  ⟨reachable_waitingState, by decide, by decide, by decide⟩

/-- C4, amended: for a request in flight in a reachable state, a response that
parses to an object with a string `answer` field `a`, and whose
`detected_language` field, when present, converts to a string without throwing,
removes the typing indicator, appends one assistant message with markup
`formatMessage a` at the end and nothing else, clears the processing flag and
enables the button; the resulting state does not depend on `detected_language`. -/
theorem settle_answered (html : String → Fragment) (s : State) (h : Reachable html s)
    (i : Nat) (p : Pending) (hg : s.pending.get? i = some p)
    (fields : List (String × Json)) (a : String)
    (ha : fields.lookup "answer" = some (.str a))
    (hl : ∀ v, fields.lookup "detected_language" = some v → toStringThrows v = false) :
    step html s (.settle i (.parsed (.obj fields))) =
      { s with
        transcript := messages s.transcript
          ++ [assistantNode s.nextRef (formatMessage a) (fragmentOf html (formatMessage a))]
        nextRef := s.nextRef + 1
        isProcessing := false
        sendDisabled := false
        inputFocused := true
        pending := [] } ∧
    (∀ n ∈ (step html s (.settle i (.parsed (.obj fields)))).transcript,
      isTypingIndicator n = false) := by
  have e := settle_eq html s h i p hg (.parsed (.obj fields)) a
    (fun st hc => resume_answered html p.typingIndicator fields a st ha hl hc)
  refine ⟨e, ?_⟩
  rw [e]
  intro n hn
  simp only [List.mem_append, List.mem_singleton] at hn
  rcases hn with hn | hn
  · have := (List.mem_filter.mp hn).2
    simpa using this
  · subst hn
    simp [isTypingIndicator, assistantNode]

theorem settle_answered_witness :
    Reachable sampleHtml waitingState ∧
    (step sampleHtml waitingState (.settle 0 (.parsed (.obj
        [("answer", .str "**hi** *there*\nok"), ("detected_language", .str "hi")])))).transcript
      = [userNode 0 "hi" Fragment.inert,
         assistantNode 2 "<strong>hi</strong> <em>there</em><br>ok" Fragment.inert] :=
  ⟨reachable_waitingState,
    (congrArg State.transcript
      (settle_answered sampleHtml waitingState reachable_waitingState 0
        { url := "/ask", method := "POST", contentType := "application/json",
          question := "hi", language := PropValue.str "auto", typingIndicator := 1 }
        (by decide)
        [("answer", .str "**hi** *there*\nok"), ("detected_language", .str "hi")]
        "**hi** *there*\nok" rfl
        (fun v hv => by
          have hv' : some (Json.str "hi") = some v := hv
          cases hv'
          rfl)).1).trans (by decide)⟩

/-- C5: for a request in flight in a reachable state that fails (`fetch`
rejects, the body does not parse, or the parsed body has no string `answer`),
the handler ends with the typing indicator gone, one assistant message with the
fixed fallback text appended, the flag clear and the button enabled; a submit
with non-empty trimmed input that follows is accepted and appends its user
message right after the fallback message, and where neither the rendered
messages nor the new one hold an element that a document lookup of the handler
observes, a typing indicator follows it. -/
theorem settle_failed (html : String → Fragment) (s : State) (h : Reachable html s)
    (i : Nat) (p : Pending) (hg : s.pending.get? i = some p) (o : Outcome)
    (hf : Failed o = true) :
    step html s (.settle i o) =
      { s with
        transcript := messages s.transcript
          ++ [assistantNode s.nextRef fallbackText Fragment.inert]
        nextRef := s.nextRef + 1
        isProcessing := false
        sendDisabled := false
        inputFocused := true
        pending := [] } ∧
    (∀ n ∈ (step html s (.settle i o)).transcript, isTypingIndicator n = false) ∧
    (∀ v : String, trim v ≠ "" →
      (messages s.transcript ++
          [assistantNode s.nextRef fallbackText Fragment.inert,
           userNode (s.nextRef + 1) (formatMessage (trim v))
             (fragmentOf html (formatMessage (trim v)))]).map unstyled
        <+: (step html (step html (step html s (.settle i o)) (.input v)) .submit).transcript.map
              unstyled) ∧
    (∀ v : String, trim v ≠ "" → Silent s →
      (fragmentOf html (formatMessage (trim v))).silent = true →
      (step html (step html (step html s (.settle i o)) (.input v)) .submit).transcript
        = messages s.transcript ++
          [assistantNode s.nextRef fallbackText Fragment.inert,
           userNode (s.nextRef + 1) (formatMessage (trim v))
             (fragmentOf html (formatMessage (trim v))),
           indicatorNode (s.nextRef + 2)]) := by
  have e := settle_eq html s h i p hg o fallbackText
    (fun st hc => resume_failed html p.typingIndicator o st hf hc)
  rw [fragmentOf_fallback, formatMessage_fallback] at e
  have hinv := inv_reachable html s h
  obtain ⟨hp, -⟩ := pending_of_get s i p hinv.2.2.1 hg
  have hne : s.pending ≠ [] := by rw [hp]; simp
  have hfree : createElementShadowed s = false := hinv.2.2.2.2.2.2.2.1 hne
  refine ⟨e, ?_, ?_, ?_⟩
  · rw [e]
    intro n hn
    simp only [List.mem_append, List.mem_singleton] at hn
    rcases hn with hn | hn
    · have := (List.mem_filter.mp hn).2
      simpa using this
    · subst hn
      simp [isTypingIndicator, assistantNode]
  · intro v hv
    rw [e]
    have hc : createElementShadowed
        (step html
          { s with
            transcript := messages s.transcript
              ++ [assistantNode s.nextRef fallbackText Fragment.inert]
            nextRef := s.nextRef + 1
            isProcessing := false
            sendDisabled := false
            inputFocused := true
            pending := [] } (.input v)) = false := by
      unfold createElementShadowed at hfree ⊢
      rw [List.any_eq_false] at hfree ⊢
      intro n hn
      have hn' : n ∈ messages s.transcript
          ++ [assistantNode s.nextRef fallbackText Fragment.inert] := hn
      simp only [List.mem_append, List.mem_singleton] at hn'
      rcases hn' with hn' | hn'
      · exact hfree n (List.mem_of_mem_filter hn')
      · subst hn'; simp [assistantNode, Fragment.inert]
    have := unstyled_prefix_submit_user html _ rfl hv hc
    simpa [step] using this
  · intro v hv hs hm
    rw [e]
    have hs' : Silent
        (step html
          { s with
            transcript := messages s.transcript
              ++ [assistantNode s.nextRef fallbackText Fragment.inert]
            nextRef := s.nextRef + 1
            isProcessing := false
            sendDisabled := false
            inputFocused := true
            pending := [] } (.input v)) := by
      intro n hn
      have hn' : n ∈ messages s.transcript
          ++ [assistantNode s.nextRef fallbackText Fragment.inert] := hn
      simp only [List.mem_append, List.mem_singleton] at hn'
      rcases hn' with hn' | hn'
      · exact hs n (List.mem_of_mem_filter hn')
      · subst hn'; rfl
    obtain ⟨-, e2⟩ := submitHandler_silent html _ rfl hv hs' hm
    show (submitHandler html _).transcript = _
    rw [e2]
    show (appendMessage html _ "user" _).transcript ++ [indicatorNode _] = _
    rw [userNode_eq]
    simp [step]
    rfl

theorem settle_failed_witness :
    Reachable sampleHtml waitingState ∧
    (waitingState.pending.get? 0).isSome = true ∧
    Failed (.parsed (.obj [("answer", .num false)])) = true ∧
    (step sampleHtml waitingState
        (.settle 0 (.parsed (.obj [("answer", .num false)])))).transcript
      = [userNode 0 "hi" Fragment.inert, assistantNode 2 fallbackText Fragment.inert] :=
  ⟨reachable_waitingState, by decide, by decide,
    (congrArg State.transcript
      (settle_failed sampleHtml waitingState reachable_waitingState 0
        { url := "/ask", method := "POST", contentType := "application/json",
          question := "hi", language := PropValue.str "auto", typingIndicator := 1 }
        (by decide) (.parsed (.obj [("answer", .num false)])) (by decide)).1).trans
      (by decide)⟩

end ChatWidget
